import Mathlib

/-!
# Verification of the beautiful-mermaid layout core

Shallow embedding of the C4 / ArchiMate layout engines
(`src/c4/layout.ts`, `src/archimate/renderer.ts`) and the text-metrics
estimator (`src/styles.ts`).  Pixel coordinates are modelled as rationals.
JavaScript strings are modelled as Lean strings (iterated by Unicode code
point, as `for … of` does); `charCodeAt(0)` of a code point is modelled
explicitly, returning the high surrogate for astral code points.

The external layered-layout library (dagre) and the repository's
`src/dagre-adapter.ts` are not part of the provided sources; they are
modelled from the specification's interface contracts (§4.2, §4.3, §4.5)
and marked `Modelled from the spec:` below.
-/

namespace BM

/-! ## Text metrics (`src/styles.ts`) -/

/-- JavaScript `string.charCodeAt(0)` applied to a single Unicode code point:
the code point itself in the BMP, otherwise the high surrogate of its
UTF-16 encoding. -/
def charCodeAt0 (cp : Nat) : Nat :=
  if cp ≤ 0xFFFF then cp else 0xD800 + (cp - 0x10000) / 0x400

/-- `isFullWidth` from `src/styles.ts`: fullwidth (CJK, Hangul, …) check on
the first UTF-16 code unit of the character. -/
def isFullWidth (c : Char) : Bool :=
  let code := charCodeAt0 c.toNat
  (0x1100 ≤ code && code ≤ 0x11ff) ||   -- Hangul Jamo
  (0x3000 ≤ code && code ≤ 0x303f) ||   -- CJK Punctuation
  (0x3040 ≤ code && code ≤ 0x309f) ||   -- Hiragana
  (0x30a0 ≤ code && code ≤ 0x30ff) ||   -- Katakana
  (0x3130 ≤ code && code ≤ 0x318f) ||   -- Hangul Compatibility Jamo
  (0x4e00 ≤ code && code ≤ 0x9fff) ||   -- CJK Unified Ideographs
  (0xac00 ≤ code && code ≤ 0xd7af) ||   -- Hangul Syllables
  (0xff00 ≤ code && code ≤ 0xffef)      -- Fullwidth Forms

/-- Display-width accumulation over a list of characters: fullwidth
characters count 2 columns, all others 1. -/
def displayWidthAux : List Char → Nat
  | [] => 0
  | c :: cs => (if isFullWidth c then 2 else 1) + displayWidthAux cs

/-- `getDisplayWidth` from `src/styles.ts`. -/
def getDisplayWidth (text : String) : Nat :=
  displayWidthAux text.data

/-- The per-weight average-character-width ratio used by `estimateTextWidth`
(`fontWeight >= 600 ? 0.58 : fontWeight >= 500 ? 0.55 : 0.52`). -/
def widthRatio (fontWeight : ℚ) : ℚ :=
  if 600 ≤ fontWeight then 0.58 else if 500 ≤ fontWeight then 0.55 else 0.52

/-- `estimateTextWidth` from `src/styles.ts`. -/
def estimateTextWidth (text : String) (fontSize fontWeight : ℚ) : ℚ :=
  (getDisplayWidth text : ℚ) * fontSize * widthRatio fontWeight

/-- `FONT_SIZES.nodeLabel` -/
def FONT_SIZES.nodeLabel : ℚ := 13
/-- `FONT_SIZES.edgeLabel` -/
def FONT_SIZES.edgeLabel : ℚ := 11
/-- `FONT_WEIGHTS.nodeLabel` -/
def FONT_WEIGHTS.nodeLabel : ℚ := 500
/-- `FONT_WEIGHTS.edgeLabel` -/
def FONT_WEIGHTS.edgeLabel : ℚ := 400

/-! ## C4 data model (`src/c4/types.ts`) -/

/-- `C4ElementKind` -/
inductive C4ElementKind where
  | Person | System | Container | ContainerDb | ContainerQueue
  | Component | ComponentDb | ComponentQueue | Deployment_Node
  deriving DecidableEq, Repr

/-- `C4Element` (the `parentBoundary` back-pointer is unused by layout). -/
structure C4Element where
  kind : C4ElementKind
  alias_ : String
  label : String
  description : Option String
  technology : Option String
  external : Bool
  deriving DecidableEq, Repr

/-- `C4Relationship` (`from` is a Lean keyword, so the field is `from_`;
the `direction` hint is unused by layout). -/
structure C4Relationship where
  from_ : String
  to_ : String
  label : String
  technology : Option String
  deriving DecidableEq, Repr

/-- `C4BoundaryKind` -/
inductive C4BoundaryKind where
  | Boundary | System_Boundary | Container_Boundary | Enterprise_Boundary
  | Deployment_Node
  deriving DecidableEq, Repr

/-- `C4Boundary` — recursive through `childBoundaries`. -/
inductive C4Boundary where
  | mk (alias_ : String) (label : String) (kind : C4BoundaryKind)
       (elements : List C4Element) (childBoundaries : List C4Boundary)
  deriving Repr

/-- The member elements of a boundary. -/
def C4Boundary.elements : C4Boundary → List C4Element
  | .mk _ _ _ els _ => els

/-- The child boundaries of a boundary. -/
def C4Boundary.childBoundaries : C4Boundary → List C4Boundary
  | .mk _ _ _ _ cs => cs

/-- `C4Diagram` (the `type` keyword field is irrelevant to layout). -/
structure C4Diagram where
  title : Option String
  elements : List C4Element
  relationships : List C4Relationship
  boundaries : List C4Boundary

/-- A 2-D point (edge bend point). -/
structure Pt where
  x : ℚ
  y : ℚ
  deriving DecidableEq, Repr

/-- `PositionedC4Element` -/
structure PositionedC4Element where
  kind : C4ElementKind
  alias_ : String
  label : String
  description : Option String
  technology : Option String
  external : Bool
  x : ℚ
  y : ℚ
  width : ℚ
  height : ℚ
  deriving DecidableEq, Repr

/-- `PositionedC4Relationship` -/
structure PositionedC4Relationship where
  from_ : String
  to_ : String
  label : String
  technology : Option String
  points : List Pt
  deriving DecidableEq, Repr

/-- `PositionedC4Boundary` — recursive through `children`. -/
inductive PositionedC4Boundary where
  | mk (alias_ : String) (label : String) (kind : C4BoundaryKind)
       (x y width height : ℚ) (children : List PositionedC4Boundary)
  deriving Repr

/-- x coordinate of a positioned boundary. -/
def PositionedC4Boundary.x : PositionedC4Boundary → ℚ
  | .mk _ _ _ x _ _ _ _ => x

/-- y coordinate of a positioned boundary. -/
def PositionedC4Boundary.y : PositionedC4Boundary → ℚ
  | .mk _ _ _ _ y _ _ _ => y

/-- width of a positioned boundary. -/
def PositionedC4Boundary.width : PositionedC4Boundary → ℚ
  | .mk _ _ _ _ _ w _ _ => w

/-- height of a positioned boundary. -/
def PositionedC4Boundary.height : PositionedC4Boundary → ℚ
  | .mk _ _ _ _ _ _ h _ => h

/-- children of a positioned boundary. -/
def PositionedC4Boundary.children : PositionedC4Boundary → List PositionedC4Boundary
  | .mk _ _ _ _ _ _ _ cs => cs

/-- `PositionedC4Diagram` -/
structure PositionedC4Diagram where
  width : ℚ
  height : ℚ
  title : Option String
  elements : List PositionedC4Element
  relationships : List PositionedC4Relationship
  boundaries : List PositionedC4Boundary

deriving instance DecidableEq for Except

/-! ## Model of the external graph-layout library (dagre / graphlib)

The library is an external collaborator (spec §1, §9); only its narrow
interface is specified.  A `DagreGraph` records the nodes and edges the
layout code registers (`setNode` / `setEdge`); the graph is directed and
not a multigraph, so `setEdge` on an existing ordered pair overwrites that
edge's attributes in place.  The numeric outcome of a layout run is not
computable here, so it is supplied by a `DagreEngine` parameter; the
failure condition is modelled from the spec (§4.2). -/

/-- Insert-or-overwrite on an association list, keeping the original
position of an existing key (graphlib map semantics). -/
def updateAssoc {κ α : Type} [DecidableEq κ] (l : List (κ × α)) (k : κ) (a : α) :
    List (κ × α) :=
  if l.any (fun p => p.1 = k) then l.map (fun p => if p.1 = k then (k, a) else p)
  else l ++ [(k, a)]

/-- The mutable graph structure handed to the layout library: registered
nodes and edges, in insertion order. -/
structure DagreGraph (ν ε : Type) where
  nodes : List (String × ν)
  edges : List ((String × String) × ε)

/-- `g.setNode(id, attrs)` -/
def DagreGraph.setNode {ν ε : Type} (g : DagreGraph ν ε) (id : String) (attrs : ν) :
    DagreGraph ν ε :=
  { g with nodes := updateAssoc g.nodes id attrs }

/-- `g.setEdge(v, w, attrs)` — one edge per ordered pair (non-multigraph). -/
def DagreGraph.setEdge {ν ε : Type} (g : DagreGraph ν ε) (v w : String) (attrs : ε) :
    DagreGraph ν ε :=
  { g with edges := updateAssoc g.edges (v, w) attrs }

/-- `g.hasNode(id)` -/
def DagreGraph.hasNode {ν ε : Type} (g : DagreGraph ν ε) (id : String) : Bool :=
  g.nodes.any (fun p => p.1 = id)

/-- Structural validity: every registered edge references registered nodes. -/
def DagreGraph.structurallyValid {ν ε : Type} (g : DagreGraph ν ε) : Bool :=
  g.edges.all (fun e => g.hasNode e.1.1 && g.hasNode e.1.2)

/-- A laid-out node as read back from the library (center coordinates;
the size fields are read defensively with `??` in the source, hence
`Option`). -/
structure DagreNodeOut where
  x : ℚ
  y : ℚ
  width : Option ℚ
  height : Option ℚ
  deriving DecidableEq, Repr

/-- The library's answer for one layout run: node positions, per-edge raw
polylines, and the overall graph size. -/
structure DagreSolution where
  node : String → Option DagreNodeOut
  points : String × String → Option (List Pt)
  width : Option ℚ
  height : Option ℚ

/-- One concrete behaviour of the external library: a total solver plus
the message of the exception it would raise on structurally invalid
input. -/
structure DagreEngine (ν ε : Type) where
  solve : DagreGraph ν ε → DagreSolution
  failMsg : DagreGraph ν ε → String

/-- Modelled from the spec: `dagre.layout` (external library, not part of
this repository's sources).  Per §4.2 the layout fails only on
structurally invalid input — an edge referencing a node id never
registered with the engine — raising an exception whose message the
caller wraps; on valid input it returns a complete solution. -/
def dagreLayout {ν ε : Type} (eng : DagreEngine ν ε) (g : DagreGraph ν ε) :
    Except String DagreSolution :=
  if g.structurallyValid then .ok (eng.solve g) else .error (eng.failMsg g)

/-! ## Geometry adapter (`src/dagre-adapter.ts`, not in the provided
sources — all three functions are modelled from the spec) -/

/-- Modelled from the spec: `centerToTopLeft` from `src/dagre-adapter.ts`
(file absent from the provided sources).  §4.5: exact arithmetic
`x = cx - w/2`, `y = cy - h/2`; pure and total. -/
def centerToTopLeft (cx cy w h : ℚ) : Pt :=
  ⟨cx - w / 2, cy - h / 2⟩

/-- One snapped segment: a diagonal original segment gains one
intermediate bend (moving vertically first when `verticalFirst`);
an axis-aligned segment is kept. -/
def snapSegment (p q : Pt) (verticalFirst : Bool) : List Pt :=
  if p.x = q.x ∨ p.y = q.y then [q]
  else if verticalFirst then [⟨p.x, q.y⟩, q]
  else [⟨q.x, p.y⟩, q]

/-- Tail-processing of the snapping pass: `p` is the previous output
point. -/
def snapAux (verticalFirst : Bool) : Pt → List Pt → List Pt
  | _, [] => []
  | p, q :: rest => snapSegment p q verticalFirst ++ snapAux verticalFirst q rest

/-- Modelled from the spec: `snapToOrthogonal` from `src/dagre-adapter.ts`
(file absent from the provided sources).  §4.3: produce a sequence where
every consecutive pair differs in only one coordinate, inserting at most
one intermediate point per original segment (vertical-first for
top-to-bottom layouts); the start and end points are unchanged and paths
of 0 or 1 points pass through unchanged. -/
def snapToOrthogonal (points : List Pt) (verticalFirst : Bool) : List Pt :=
  match points with
  | [] => []
  | p :: rest => p :: snapAux verticalFirst p rest

/-- A node shape descriptor handed to endpoint clipping
(`{cx, cy, hw, hh}` in the callers). -/
structure ClipRect where
  cx : ℚ
  cy : ℚ
  hw : ℚ
  hh : ℚ
  deriving DecidableEq, Repr

/-- Whether a point lies inside (or on) the rectangle. -/
def ClipRect.contains (r : ClipRect) (p : Pt) : Bool :=
  decide (r.cx - r.hw ≤ p.x) && decide (p.x ≤ r.cx + r.hw) &&
  decide (r.cy - r.hh ≤ p.y) && decide (p.y ≤ r.cy + r.hh)

/-- The point where an axis-aligned segment leaving `p` towards `q` crosses
the boundary of `r` (paths are snapped before clipping, so only
axis-aligned first segments occur; a diagonal segment is left
unchanged). -/
def exitTowards (r : ClipRect) (p q : Pt) : Pt :=
  if p.x = q.x then ⟨p.x, if p.y ≤ q.y then r.cy + r.hh else r.cy - r.hh⟩
  else if p.y = q.y then ⟨if p.x ≤ q.x then r.cx + r.hw else r.cx - r.hw, p.y⟩
  else p

/-- Clip the first path point to the boundary of an optional shape: when a
descriptor is given and the path starts inside it, the first point is
replaced by the boundary-crossing point of the first segment; a `none`
descriptor leaves the path unmodified. -/
def clipFirst (shape : Option ClipRect) : List Pt → List Pt
  | p :: q :: rest =>
    match shape with
    | some r => if r.contains p then exitTowards r p q :: q :: rest else p :: q :: rest
    | none => p :: q :: rest
  | pts => pts

/-- Modelled from the spec: `clipEndpointsToNodes` from
`src/dagre-adapter.ts` (file absent from the provided sources).  §4.3:
replace the first point with the exit point from the source rectangle and
the last point with the entry point into the target rectangle; an omitted
descriptor leaves that endpoint unmodified. -/
def clipEndpointsToNodes (points : List Pt) (src tgt : Option ClipRect) : List Pt :=
  (clipFirst tgt (clipFirst src points).reverse).reverse

/-! ## C4 layout engine (`src/c4/layout.ts`) -/

/-- `C4.padding` -/
def C4.padding : ℚ := 40
/-- `C4.boxPadX` -/
def C4.boxPadX : ℚ := 16
/-- `C4.boxPadY` -/
def C4.boxPadY : ℚ := 12
/-- `C4.personWidth` -/
def C4.personWidth : ℚ := 160
/-- `C4.personHeight` -/
def C4.personHeight : ℚ := 180
/-- `C4.minBoxWidth` -/
def C4.minBoxWidth : ℚ := 160
/-- `C4.minBoxHeight` -/
def C4.minBoxHeight : ℚ := 80
/-- `C4.lineHeight` -/
def C4.lineHeight : ℚ := 18
/-- `C4.boundaryPadding` -/
def C4.boundaryPadding : ℚ := 30
/-- `C4.boundaryHeaderHeight` -/
def C4.boundaryHeaderHeight : ℚ := 28
/-- `C4.nodeSpacing` -/
def C4.nodeSpacing : ℚ := 60
/-- `C4.layerSpacing` -/
def C4.layerSpacing : ℚ := 80
/-- `C4.titleFontSize` -/
def C4.titleFontSize : ℚ := 14
/-- `C4.titleFontWeight` -/
def C4.titleFontWeight : ℚ := 600
/-- `C4.descFontSize` -/
def C4.descFontSize : ℚ := 11
/-- `C4.descFontWeight` -/
def C4.descFontWeight : ℚ := 400
/-- `C4.techFontSize` -/
def C4.techFontSize : ℚ := 10
/-- `C4.techFontWeight` -/
def C4.techFontWeight : ℚ := 400

/-- A computed box size. -/
structure Size where
  width : ℚ
  height : ℚ
  deriving DecidableEq, Repr

/-- `calculateElementSize` (src/c4/layout.ts:187): Person boxes are a fixed
160×180; other elements are sized from their text content. -/
def calculateElementSize (element : C4Element) : Size :=
  if element.kind = .Person then ⟨C4.personWidth, C4.personHeight⟩
  else
    let labelW := estimateTextWidth element.label FONT_SIZES.nodeLabel FONT_WEIGHTS.nodeLabel
    let maxTextW := labelW
    let maxTextW := match element.technology with
      | some t =>
        max maxTextW (estimateTextWidth ("[" ++ t ++ "]") C4.techFontSize C4.techFontWeight)
      | none => maxTextW
    let maxTextW := match element.description with
      | some d => max maxTextW (estimateTextWidth d C4.descFontSize C4.descFontWeight)
      | none => maxTextW
    let width := max C4.minBoxWidth (maxTextW + C4.boxPadX * 2)
    let textLines : ℚ :=
      1 + (if element.technology.isSome then 1 else 0)
        + (if element.description.isSome then 1 else 0)
    let height := max C4.minBoxHeight (textLines * C4.lineHeight + C4.boxPadY * 2)
    ⟨width, height⟩

/-- The dagre node attributes set by the C4 layout (`{width, height}`). -/
structure C4NodeAttrs where
  width : ℚ
  height : ℚ
  deriving DecidableEq, Repr

/-- The dagre edge attributes set by the C4 layout
(`{_index, label, width, height, labelpos}`). -/
structure C4EdgeAttrs where
  index : Nat
  label : String
  width : ℚ
  height : ℚ
  labelpos : String
  deriving DecidableEq, Repr

/-- The edge label text for a C4 relationship
(`rel.technology ? label [technology] : label`). -/
def c4EdgeLabelText (rel : C4Relationship) : String :=
  match rel.technology with
  | some t => rel.label ++ " [" ++ t ++ "]"
  | none => rel.label

/-- The dagre edge attributes for the relationship at index `i`
(`{_index: i, label, width, height, labelpos: 'c'}`). -/
def c4EdgeAttrsAt (i : Nat) (rel : C4Relationship) : C4EdgeAttrs :=
  { index := i, label := c4EdgeLabelText rel,
    width := estimateTextWidth (c4EdgeLabelText rel)
      FONT_SIZES.edgeLabel FONT_WEIGHTS.edgeLabel + 8,
    height := FONT_SIZES.edgeLabel + 6, labelpos := "c" }

/-- The indexed relationship loop of step 2 of `layoutC4Diagram`:
`g.setEdge(rel.from, rel.to, {_index: i, …})` for each relationship. -/
def addC4Edges : Nat → List C4Relationship →
    DagreGraph C4NodeAttrs C4EdgeAttrs → DagreGraph C4NodeAttrs C4EdgeAttrs
  | _, [], g => g
  | i, rel :: rest, g =>
    addC4Edges (i + 1) rest (g.setEdge rel.from_ rel.to_ (c4EdgeAttrsAt i rel))

/-- The element-registration loop of step 2 of `layoutC4Diagram`:
`g.setNode(alias, {width, height})` for each element. -/
def addC4Nodes : List C4Element → DagreGraph C4NodeAttrs C4EdgeAttrs →
    DagreGraph C4NodeAttrs C4EdgeAttrs
  | [], g => g
  | el :: rest, g =>
    let size := calculateElementSize el
    addC4Nodes rest (g.setNode el.alias_ ⟨size.width, size.height⟩)

/-- Steps 1–2 of `layoutC4Diagram`: register each element under its alias
with its computed size, then add one dagre edge per relationship. -/
def buildC4Graph (diagram : C4Diagram) : DagreGraph C4NodeAttrs C4EdgeAttrs :=
  addC4Edges 0 diagram.relationships (addC4Nodes diagram.elements ⟨[], []⟩)

/-- Step 4 of `layoutC4Diagram`: read back each element's center position
and convert to top-left (dagre echoes the registered node size, read
defensively with `?? size`). -/
def extractC4Elements (diagram : C4Diagram) (sol : DagreSolution) :
    List PositionedC4Element :=
  diagram.elements.map (fun element =>
    let size := calculateElementSize element
    let dn := (sol.node element.alias_).getD ⟨0, 0, none, none⟩
    let w := dn.width.getD size.width
    let h := dn.height.getD size.height
    let topLeft := centerToTopLeft dn.x dn.y w h
    { kind := element.kind, alias_ := element.alias_, label := element.label,
      description := element.description, technology := element.technology,
      external := element.external,
      x := topLeft.x, y := topLeft.y, width := w, height := h })

/-- The clip descriptor for an edge endpoint
(`{cx, cy, hw: width/2, hh: height/2}`). -/
def clipRectOfNode (n : DagreNodeOut) : ClipRect :=
  ⟨n.x, n.y, n.width.getD 0 / 2, n.height.getD 0 / 2⟩

/-- The body of step 5's `g.edges().map(...)`: look the source
relationship up by the stored `_index` (always valid by construction —
the source indexes with a non-null assertion), snap the raw polyline and
clip its endpoints to the two node shapes. -/
def c4RelOfEdge (diagram : C4Diagram) (sol : DagreSolution)
    (e : (String × String) × C4EdgeAttrs) : Option PositionedC4Relationship :=
  match diagram.relationships.get? e.2.index with
  | none => none
  | some rel =>
    let rawPoints := (sol.points e.1).getD []
    let orthoPoints := snapToOrthogonal rawPoints true
    let srcNode := (sol.node e.1.1).map clipRectOfNode
    let tgtNode := (sol.node e.1.2).map clipRectOfNode
    some { from_ := rel.from_, to_ := rel.to_, label := rel.label,
           technology := rel.technology,
           points := clipEndpointsToNodes orthoPoints srcNode tgtNode }

/-- Step 5 of `layoutC4Diagram`: map over `g.edges()`. -/
def extractC4Relationships (diagram : C4Diagram)
    (g : DagreGraph C4NodeAttrs C4EdgeAttrs) (sol : DagreSolution) :
    List PositionedC4Relationship :=
  g.edges.filterMap (c4RelOfEdge diagram sol)

/-- An accumulated child rectangle (`{x, y, right, bottom}` in
`layoutBoundaries`). -/
structure ChildRect where
  x : ℚ
  y : ℚ
  right : ℚ
  bottom : ℚ
  deriving DecidableEq, Repr

/-- The rectangles of a boundary's positioned member elements (members not
present in the lookup are skipped). -/
def memberRects (elements : List C4Element)
    (elementLookup : String → Option PositionedC4Element) : List ChildRect :=
  elements.filterMap (fun element =>
    (elementLookup element.alias_).map (fun pos =>
      ⟨pos.x, pos.y, pos.x + pos.width, pos.y + pos.height⟩))

/-- The rectangles of already-positioned child boundaries. -/
def childRects (children : List PositionedC4Boundary) : List ChildRect :=
  children.map (fun child =>
    ⟨child.x, child.y, child.x + child.width, child.y + child.height⟩)

mutual
/-- `layoutBoundaries` (src/c4/layout.ts:224): recursively lay out
boundaries from the bounding box of their children plus padding. -/
def layoutBoundaries (boundaries : List C4Boundary)
    (elementLookup : String → Option PositionedC4Element) :
    List PositionedC4Boundary :=
  match boundaries with
  | [] => []
  | b :: rest => layoutBoundary b elementLookup :: layoutBoundaries rest elementLookup

/-- Lay out a single boundary: child boundaries first, then the padded
bounding box of all member-element and child rectangles (an empty
boundary gets a minimal placeholder box at the origin). -/
def layoutBoundary (boundary : C4Boundary)
    (elementLookup : String → Option PositionedC4Element) : PositionedC4Boundary :=
  match boundary with
  | .mk alias_ label kind elements childBoundaries =>
    let children := layoutBoundaries childBoundaries elementLookup
    match memberRects elements elementLookup ++ childRects children with
    | [] => .mk alias_ label kind 0 0 C4.minBoxWidth C4.minBoxHeight children
    | r0 :: rs =>
      let minX := rs.foldl (fun a r => min a r.x) r0.x
      let minY := rs.foldl (fun a r => min a r.y) r0.y
      let maxX := rs.foldl (fun a r => max a r.right) r0.right
      let maxY := rs.foldl (fun a r => max a r.bottom) r0.bottom
      .mk alias_ label kind
        (minX - C4.boundaryPadding)
        (minY - C4.boundaryPadding - C4.boundaryHeaderHeight)
        ((maxX - minX) + C4.boundaryPadding * 2)
        ((maxY - minY) + C4.boundaryPadding * 2 + C4.boundaryHeaderHeight)
        children
end

/-- `flattenBoundaries` (src/c4/layout.ts:298). -/
def flattenBoundaries (boundaries : List PositionedC4Boundary) :
    List PositionedC4Boundary :=
  match boundaries with
  | [] => []
  | .mk alias_ label kind x y w h cs :: rest =>
    .mk alias_ label kind x y w h cs ::
      (flattenBoundaries cs ++ flattenBoundaries rest)

/-- `layoutC4Diagram` (src/c4/layout.ts:57), with the external dagre engine
passed explicitly (steps 3–7 of the source; step 3's try/catch wraps the
library failure message). -/
def layoutC4Diagram (eng : DagreEngine C4NodeAttrs C4EdgeAttrs)
    (diagram : C4Diagram) : Except String PositionedC4Diagram :=
  if diagram.elements.length = 0 then
    .ok { width := 0, height := 0, title := none, elements := [],
          relationships := [], boundaries := [] }
  else
    let g := buildC4Graph diagram
    match dagreLayout eng g with
    | .error message => .error ("Dagre layout failed (C4 diagram): " ++ message)
    | .ok sol =>
      let positionedElements := extractC4Elements diagram sol
      let elementLookup := fun a => positionedElements.find? (fun el => el.alias_ = a)
      let relationships := extractC4Relationships diagram g sol
      let positionedBoundaries := layoutBoundaries diagram.boundaries elementLookup
      let maxW := (flattenBoundaries positionedBoundaries).foldl
        (fun acc b => max acc (b.x + b.width + C4.padding)) (sol.width.getD 600)
      let maxH := (flattenBoundaries positionedBoundaries).foldl
        (fun acc b => max acc (b.y + b.height + C4.padding)) (sol.height.getD 400)
      .ok { width := maxW, height := maxH, title := diagram.title,
            elements := positionedElements, relationships := relationships,
            boundaries := positionedBoundaries }

/-! ## ArchiMate data model (`src/archimate/types.ts`) -/

/-- `ArchiMateLayer` -/
inductive ArchiMateLayer where
  | business | application | technology | strategy | motivation | physical
  | implementation
  deriving DecidableEq, Repr

/-- `ArchiMateElementType` — a closed string union in the source, modelled
as the underlying strings (the layout only measures the type name's
width). -/
abbrev ArchiMateElementType := String

/-- `ArchiMateRelationshipType` — a closed string union in the source,
passed through untouched by layout. -/
abbrev ArchiMateRelationshipType := String

/-- `ArchiMateElement` -/
structure ArchiMateElement where
  id : String
  label : String
  type : ArchiMateElementType
  layer : ArchiMateLayer
  deriving DecidableEq, Repr

/-- `ArchiMateRelationship` -/
structure ArchiMateRelationship where
  source : String
  target : String
  type : ArchiMateRelationshipType
  label : Option String
  deriving DecidableEq, Repr

/-- `ArchiMateDiagram` — the two `Map`s are modelled as association lists
in insertion order with unique keys. -/
structure ArchiMateDiagram where
  layers : List (ArchiMateLayer × List ArchiMateElement)
  elements : List (String × ArchiMateElement)
  relationships : List ArchiMateRelationship

/-- `Map.get` on an association list. -/
def lookupAssoc {κ α : Type} [DecidableEq κ] (l : List (κ × α)) (k : κ) : Option α :=
  (l.find? (fun p => p.1 = k)).map (·.2)

/-- `PositionedArchiMateElement` -/
structure PositionedArchiMateElement where
  id : String
  label : String
  type : ArchiMateElementType
  layer : ArchiMateLayer
  x : ℚ
  y : ℚ
  width : ℚ
  height : ℚ
  deriving DecidableEq, Repr

/-- `PositionedArchiMateLayer` -/
structure PositionedArchiMateLayer where
  name : ArchiMateLayer
  x : ℚ
  y : ℚ
  width : ℚ
  height : ℚ
  deriving DecidableEq, Repr

/-- `PositionedArchiMateRelationship` -/
structure PositionedArchiMateRelationship where
  source : String
  target : String
  type : ArchiMateRelationshipType
  label : Option String
  points : List Pt
  deriving DecidableEq, Repr

/-- `PositionedArchiMateDiagram` -/
structure PositionedArchiMateDiagram where
  width : ℚ
  height : ℚ
  layers : List PositionedArchiMateLayer
  elements : List PositionedArchiMateElement
  relationships : List PositionedArchiMateRelationship
  deriving DecidableEq, Repr

/-! ## ArchiMate layout engine (`src/archimate/renderer.ts`) -/

/-- `ARCHIMATE.padding` -/
def ARCHIMATE.padding : ℚ := 40
/-- `ARCHIMATE.minElementWidth` -/
def ARCHIMATE.minElementWidth : ℚ := 120
/-- `ARCHIMATE.elementHeight` -/
def ARCHIMATE.elementHeight : ℚ := 50
/-- `ARCHIMATE.layerPadding` -/
def ARCHIMATE.layerPadding : ℚ := 20
/-- `ARCHIMATE.layerLabelHeight` -/
def ARCHIMATE.layerLabelHeight : ℚ := 24
/-- `ARCHIMATE.nodeSpacing` -/
def ARCHIMATE.nodeSpacing : ℚ := 40
/-- `ARCHIMATE.layerSpacing` -/
def ARCHIMATE.layerSpacing : ℚ := 60
/-- `ARCHIMATE.typeIndicatorSize` -/
def ARCHIMATE.typeIndicatorSize : ℚ := 9

/-- `LAYER_ORDER` — canonical layer ordering from top to bottom. -/
def LAYER_ORDER : List ArchiMateLayer :=
  [.strategy, .motivation, .business, .application, .technology, .physical,
   .implementation]

/-- Step 1 of `layoutArchiMateDiagram`: the layers present in canonical
order (`diagram.layers.has(layer) && length > 0`). -/
def presentLayers (diagram : ArchiMateDiagram) : List ArchiMateLayer :=
  LAYER_ORDER.filter (fun layer =>
    match lookupAssoc diagram.layers layer with
    | some els => decide (0 < els.length)
    | none => false)

/-- Step 2 of `layoutArchiMateDiagram`: element box width from the label
width and the type-indicator width, at the fixed element height. -/
def archElementSize (element : ArchiMateElement) : Size :=
  let labelWidth := estimateTextWidth element.label FONT_SIZES.nodeLabel FONT_WEIGHTS.nodeLabel
  let typeWidth := estimateTextWidth element.type ARCHIMATE.typeIndicatorSize 400
  ⟨max ARCHIMATE.minElementWidth (max (labelWidth + 24) (typeWidth + labelWidth / 2 + 24)),
   ARCHIMATE.elementHeight⟩

/-- The dagre node attributes set by the ArchiMate layout
(`{width, height, layer}`). -/
structure ArchNodeAttrs where
  width : ℚ
  height : ℚ
  layer : ArchiMateLayer
  deriving DecidableEq, Repr

/-- The dagre edge attributes set by the ArchiMate layout: an invisible
layer-ordering edge carries `{minlen, weight, _layerEdge: true}`, a real
relationship edge carries `{_index, label, width, height, labelpos}`
(absent JavaScript properties are `none` / `false`). -/
structure ArchEdgeAttrs where
  index : Option Nat
  layerEdge : Bool
  label : Option String
  width : Option ℚ
  height : Option ℚ
  labelpos : Option String
  minlen : Option ℚ
  weight : Option ℚ
  deriving DecidableEq, Repr

/-- The attributes of an invisible layer-ordering edge. -/
def layerEdgeAttrs : ArchEdgeAttrs :=
  { index := none, layerEdge := true, label := none, width := none,
    height := none, labelpos := none, minlen := some 2, weight := some 10 }

/-- The layer-ordering loop of `layoutArchiMateDiagram`: for each pair of
consecutive present layers, connect the first element of the upper layer
to the first element of the lower layer with an invisible high-weight
edge (when both layers have elements). -/
def addLayerEdges (diagram : ArchiMateDiagram) :
    List ArchiMateLayer → DagreGraph ArchNodeAttrs ArchEdgeAttrs →
    DagreGraph ArchNodeAttrs ArchEdgeAttrs
  | upper :: lower :: rest, g =>
    let upperElements := (lookupAssoc diagram.layers upper).getD []
    let lowerElements := (lookupAssoc diagram.layers lower).getD []
    let g1 := match upperElements, lowerElements with
      | ue :: _, le :: _ => g.setEdge ue.id le.id layerEdgeAttrs
      | _, _ => g
    addLayerEdges diagram (lower :: rest) g1
  | _, g => g

/-- `diagram.elements.has(id)` -/
def ArchiMateDiagram.hasElement (diagram : ArchiMateDiagram) (id : String) : Bool :=
  diagram.elements.any (fun p => p.1 = id)

/-- JavaScript truthiness of an optional string (`undefined` and the empty
string are falsy). -/
def strTruthy : Option String → Bool
  | some l => !(l = "")
  | none => false

/-- The indexed real-relationship loop of `layoutArchiMateDiagram`: an edge
is added only when both endpoints exist in the element map. -/
def addArchEdges (diagram : ArchiMateDiagram) :
    Nat → List ArchiMateRelationship → DagreGraph ArchNodeAttrs ArchEdgeAttrs →
    DagreGraph ArchNodeAttrs ArchEdgeAttrs
  | _, [], g => g
  | i, rel :: rest, g =>
    let g1 :=
      if diagram.hasElement rel.source && diagram.hasElement rel.target then
        g.setEdge rel.source rel.target
          { index := some i, layerEdge := false, label := some (rel.label.getD ""),
            width := some (if strTruthy rel.label then
              estimateTextWidth (rel.label.getD "") FONT_SIZES.edgeLabel FONT_WEIGHTS.edgeLabel + 8
              else 0),
            height := some (if strTruthy rel.label then FONT_SIZES.edgeLabel + 6 else 0),
            labelpos := some "c", minlen := none, weight := none }
      else g
    addArchEdges diagram (i + 1) rest g1

/-- Step 3 of `layoutArchiMateDiagram`: register every element node, then
the invisible layer-ordering edges, then the real relationship edges. -/
def buildArchGraph (diagram : ArchiMateDiagram) :
    DagreGraph ArchNodeAttrs ArchEdgeAttrs :=
  let g := diagram.elements.foldl
    (fun g p =>
      let size := archElementSize p.2
      g.setNode p.1 ⟨size.width, size.height, p.2.layer⟩)
    ⟨[], []⟩
  let g := addLayerEdges diagram (presentLayers diagram) g
  addArchEdges diagram 0 diagram.relationships g

/-- Step 5 of `layoutArchiMateDiagram`: positioned elements (entries whose
node the layout did not place are skipped: `if (!dagreNode) continue`). -/
def extractArchElements (diagram : ArchiMateDiagram) (sol : DagreSolution) :
    List PositionedArchiMateElement :=
  diagram.elements.filterMap (fun p =>
    match sol.node p.1 with
    | none => none
    | some dn =>
      let size := archElementSize p.2
      let w := dn.width.getD size.width
      let h := dn.height.getD size.height
      let topLeft := centerToTopLeft dn.x dn.y w h
      some { id := p.1, label := p.2.label, type := p.2.type, layer := p.2.layer,
             x := topLeft.x, y := topLeft.y, width := w, height := h })

/-- Step 6 of `layoutArchiMateDiagram`: one band per present layer, sized
to the padded bounding box of the layer's positioned elements (a layer
with no positioned elements is skipped). -/
def layerBands (present : List ArchiMateLayer)
    (positionedElements : List PositionedArchiMateElement) :
    List PositionedArchiMateLayer :=
  present.filterMap (fun layer =>
    match positionedElements.filter (fun e => e.layer = layer) with
    | [] => none
    | e0 :: rest =>
      let minX := rest.foldl (fun a e => min a e.x) e0.x
      let minY := rest.foldl (fun a e => min a e.y) e0.y
      let maxX := rest.foldl (fun a e => max a (e.x + e.width)) (e0.x + e0.width)
      let maxY := rest.foldl (fun a e => max a (e.y + e.height)) (e0.y + e0.height)
      some { name := layer,
             x := minX - ARCHIMATE.layerPadding,
             y := minY - ARCHIMATE.layerPadding - ARCHIMATE.layerLabelHeight,
             width := (maxX - minX) + ARCHIMATE.layerPadding * 2,
             height := (maxY - minY) + ARCHIMATE.layerPadding * 2 + ARCHIMATE.layerLabelHeight })

/-- The post-hoc band normalization of `layoutArchiMateDiagram`
(src/archimate/renderer.ts:637): when at least one band exists, every
band is given the global minimum x-origin and the global width up to the
maximum right edge. -/
def normalizeLayerWidths (ls : List PositionedArchiMateLayer) :
    List PositionedArchiMateLayer :=
  match ls with
  | [] => []
  | l0 :: rest =>
    let globalMinX := rest.foldl (fun a l => min a l.x) l0.x
    let globalMaxRight := rest.foldl (fun a l => max a (l.x + l.width)) (l0.x + l0.width)
    (l0 :: rest).map (fun l =>
      { l with x := globalMinX, width := globalMaxRight - globalMinX })

/-- Step 7 of `layoutArchiMateDiagram`: walk `g.edges()`, skip invisible
layer-ordering edges and entries without an `_index`, and rebuild each
real relationship from the diagram by its stored index. -/
def extractArchRelationships (diagram : ArchiMateDiagram)
    (g : DagreGraph ArchNodeAttrs ArchEdgeAttrs) (sol : DagreSolution) :
    List PositionedArchiMateRelationship :=
  g.edges.filterMap (fun e =>
    if e.2.layerEdge then none
    else
      match e.2.index with
      | none => none
      | some i =>
        match diagram.relationships.get? i with
        | none => none
        | some rel =>
          let rawPoints := (sol.points e.1).getD []
          let orthoPoints := snapToOrthogonal rawPoints true
          let srcNode := (sol.node e.1.1).map clipRectOfNode
          let tgtNode := (sol.node e.1.2).map clipRectOfNode
          some { source := rel.source, target := rel.target, type := rel.type,
                 label := rel.label,
                 points := clipEndpointsToNodes orthoPoints srcNode tgtNode })

/-- `layoutArchiMateDiagram` (src/archimate/renderer.ts:492), with the
external dagre engine passed explicitly. -/
def layoutArchiMateDiagram (eng : DagreEngine ArchNodeAttrs ArchEdgeAttrs)
    (diagram : ArchiMateDiagram) : Except String PositionedArchiMateDiagram :=
  if diagram.elements.length = 0 then
    .ok { width := 0, height := 0, layers := [], elements := [], relationships := [] }
  else
    let g := buildArchGraph diagram
    match dagreLayout eng g with
    | .error message => .error ("Dagre layout failed (ArchiMate diagram): " ++ message)
    | .ok sol =>
      let positionedElements := extractArchElements diagram sol
      let positionedLayers :=
        normalizeLayerWidths (layerBands (presentLayers diagram) positionedElements)
      let relationships := extractArchRelationships diagram g sol
      .ok { width := sol.width.getD 600, height := sol.height.getD 400,
            layers := positionedLayers, elements := positionedElements,
            relationships := relationships }

/-! ## General lemmas about folds, association-list updates, and widths -/

theorem foldl_min_le_init {α : Type} (f : α → ℚ) (l : List α) (init : ℚ) :
    l.foldl (fun a x => min a (f x)) init ≤ init := by
  induction l generalizing init with
  | nil => exact le_refl _
  | cons y l ih => exact le_trans (ih (min init (f y))) (min_le_left _ _)

theorem foldl_min_le_mem {α : Type} (f : α → ℚ) (l : List α) (init : ℚ) :
    ∀ x ∈ l, l.foldl (fun a x => min a (f x)) init ≤ f x := by
  induction l generalizing init with
  | nil => intro x hx; cases hx
  | cons y l ih =>
    intro x hx
    rcases List.mem_cons.mp hx with rfl | hx
    · exact le_trans (foldl_min_le_init f l (min init (f x))) (min_le_right _ _)
    · exact ih (min init (f y)) x hx

theorem le_foldl_max_init {α : Type} (f : α → ℚ) (l : List α) (init : ℚ) :
    init ≤ l.foldl (fun a x => max a (f x)) init := by
  induction l generalizing init with
  | nil => exact le_refl _
  | cons y l ih => exact le_trans (le_max_left _ _) (ih (max init (f y)))

theorem le_foldl_max_mem {α : Type} (f : α → ℚ) (l : List α) (init : ℚ) :
    ∀ x ∈ l, f x ≤ l.foldl (fun a x => max a (f x)) init := by
  induction l generalizing init with
  | nil => intro x hx; cases hx
  | cons y l ih =>
    intro x hx
    rcases List.mem_cons.mp hx with rfl | hx
    · exact le_trans (le_max_right _ _) (le_foldl_max_init f l (max init (f x)))
    · exact ih (max init (f y)) x hx

theorem foldl_min_cases {α : Type} (f : α → ℚ) (l : List α) (init : ℚ) :
    l.foldl (fun a x => min a (f x)) init = init ∨
      ∃ z ∈ l, l.foldl (fun a x => min a (f x)) init = f z := by
  induction l generalizing init with
  | nil => exact Or.inl rfl
  | cons y l ih =>
    simp only [List.foldl_cons]
    rcases min_choice init (f y) with h | h <;> rw [h]
    · rcases ih init with h2 | ⟨z, hz, h2⟩
      · exact Or.inl h2
      · exact Or.inr ⟨z, List.mem_cons_of_mem _ hz, h2⟩
    · rcases ih (f y) with h2 | ⟨z, hz, h2⟩
      · exact Or.inr ⟨y, List.mem_cons_self _ _, h2⟩
      · exact Or.inr ⟨z, List.mem_cons_of_mem _ hz, h2⟩

theorem foldl_max_cases {α : Type} (f : α → ℚ) (l : List α) (init : ℚ) :
    l.foldl (fun a x => max a (f x)) init = init ∨
      ∃ z ∈ l, l.foldl (fun a x => max a (f x)) init = f z := by
  induction l generalizing init with
  | nil => exact Or.inl rfl
  | cons y l ih =>
    simp only [List.foldl_cons]
    rcases max_choice init (f y) with h | h <;> rw [h]
    · rcases ih init with h2 | ⟨z, hz, h2⟩
      · exact Or.inl h2
      · exact Or.inr ⟨z, List.mem_cons_of_mem _ hz, h2⟩
    · rcases ih (f y) with h2 | ⟨z, hz, h2⟩
      · exact Or.inr ⟨y, List.mem_cons_self _ _, h2⟩
      · exact Or.inr ⟨z, List.mem_cons_of_mem _ hz, h2⟩

theorem mem_updateAssoc {κ α : Type} [DecidableEq κ] {l : List (κ × α)} {k : κ}
    {a : α} {e : κ × α} (he : e ∈ updateAssoc l k a) :
    e = (k, a) ∨ (e ∈ l ∧ e.1 ≠ k) := by
  unfold updateAssoc at he
  split at he
  · rcases List.mem_map.mp he with ⟨p, hp, hpe⟩
    by_cases hk : p.1 = k
    · simp only [if_pos hk] at hpe; exact Or.inl hpe.symm
    · simp only [if_neg hk] at hpe; exact Or.inr ⟨hpe ▸ hp, hpe ▸ hk⟩
  · rcases List.mem_append.mp he with h | h
    · right
      refine ⟨h, fun hk => ?_⟩
      rename_i hnone
      exact hnone (List.any_eq_true.mpr ⟨e, h, by simp [hk]⟩)
    · left; simpa using h

theorem key_mem_updateAssoc {κ α : Type} [DecidableEq κ] (l : List (κ × α)) (k : κ)
    (a : α) : ∃ b, (k, b) ∈ updateAssoc l k a := by
  unfold updateAssoc
  split
  · rename_i hsome
    rcases List.any_eq_true.mp hsome with ⟨p, hp, hpk⟩
    refine ⟨a, List.mem_map.mpr ⟨p, hp, ?_⟩⟩
    simp only [decide_eq_true_eq] at hpk
    simp [hpk]
  · exact ⟨a, List.mem_append.mpr (Or.inr (by simp))⟩

theorem key_mem_updateAssoc_of_mem {κ α : Type} [DecidableEq κ] {l : List (κ × α)}
    {k : κ} (k' : κ) (a : α) (h : ∃ b, (k, b) ∈ l) :
    ∃ b, (k, b) ∈ updateAssoc l k' a := by
  by_cases hk : k = k'
  · subst hk; exact key_mem_updateAssoc l k a
  · obtain ⟨b, hb⟩ := h
    unfold updateAssoc
    split
    · exact ⟨b, List.mem_map.mpr ⟨(k, b), hb, by simp [hk]⟩⟩
    · exact ⟨b, List.mem_append.mpr (Or.inl hb)⟩

theorem keys_nodup_updateAssoc {κ α : Type} [DecidableEq κ] {l : List (κ × α)}
    (k : κ) (a : α) (h : (l.map Prod.fst).Nodup) :
    ((updateAssoc l k a).map Prod.fst).Nodup := by
  unfold updateAssoc
  split
  · have : (l.map (fun p => if p.1 = k then (k, a) else p)).map Prod.fst = l.map Prod.fst := by
      rw [List.map_map]
      apply List.map_congr_left
      intro p _
      by_cases hk : p.1 = k
      · simp [hk]
      · simp [hk]
    rw [this]; exact h
  · rename_i hnone
    rw [List.map_append]
    simp only [List.map_cons, List.map_nil]
    rw [List.nodup_append]
    refine ⟨h, List.nodup_singleton _, ?_⟩
    intro x hx hk
    simp only [List.mem_singleton] at hk
    subst hk
    rcases List.mem_map.mp hx with ⟨p, hp, hpk⟩
    exact hnone (List.any_eq_true.mpr ⟨p, hp, by simp [hpk]⟩)

/-- Display width distributes over list append. -/
theorem displayWidthAux_append (l1 l2 : List Char) :
    displayWidthAux (l1 ++ l2) = displayWidthAux l1 + displayWidthAux l2 := by
  induction l1 with
  | nil => simp [displayWidthAux]
  | cons c cs ih => simp [displayWidthAux, ih]; omega

/-- The width ratio is always positive. -/
theorem widthRatio_pos (w : ℚ) : 0 < widthRatio w := by
  unfold widthRatio
  split_ifs <;> norm_num

/-- The width ratio is monotone in the font weight. -/
theorem widthRatio_mono {w1 w2 : ℚ} (h : w1 ≤ w2) : widthRatio w1 ≤ widthRatio w2 := by
  unfold widthRatio
  split_ifs <;> linarith

/-- Every astral code point (so in particular every emoji) is reported as
single-width by `isFullWidth`: its first UTF-16 unit is a high surrogate,
which lies in none of the checked ranges. -/
theorem isFullWidth_astral (c : Char) (h : 0x10000 ≤ c.toNat) :
    isFullWidth c = false := by
  have hvt : c.toNat < 0xd800 ∨ (0xdfff < c.toNat ∧ c.toNat < 0x110000) := c.valid
  have hlt : c.toNat < 0x110000 := by omega
  have hdiv : (c.toNat - 0x10000) / 0x400 ≤ 1023 := by
    have h1 : c.toNat - 0x10000 ≤ 0xFFFFF := by omega
    calc (c.toNat - 0x10000) / 0x400 ≤ 0xFFFFF / 0x400 := Nat.div_le_div_right h1
      _ = 1023 := by norm_num
  have key1 : 0xD800 ≤ charCodeAt0 c.toNat := by
    unfold charCodeAt0
    rw [if_neg (by omega)]
    omega
  have key2 : charCodeAt0 c.toNat ≤ 0xDBFF := by
    unfold charCodeAt0
    rw [if_neg (by omega)]
    omega
  unfold isFullWidth
  simp only [Bool.or_eq_false_iff, Bool.and_eq_false_iff, decide_eq_false_iff_not]
  omega

/-! ## Orthogonality of the snapping pass (claim C3) -/

/-- One step of an orthogonal path: the two points are identical or share
exactly one coordinate (a purely vertical or purely horizontal segment). -/
def orthoStep (p q : Pt) : Prop :=
  (p.x = q.x ∧ p.y = q.y) ∨ (p.x = q.x ∧ p.y ≠ q.y) ∨ (p.y = q.y ∧ p.x ≠ q.x)

theorem chain'_snapAux (vf : Bool) (p : Pt) (rest : List Pt) :
    List.Chain' orthoStep (p :: snapAux vf p rest) := by
  induction rest generalizing p with
  | nil => simp [snapAux]
  | cons q rest ih =>
    show List.Chain' orthoStep (p :: (snapSegment p q vf ++ snapAux vf q rest))
    unfold snapSegment
    by_cases h : p.x = q.x ∨ p.y = q.y
    · rw [if_pos h]
      refine List.chain'_cons.mpr ⟨?_, ih q⟩
      by_cases hx : p.x = q.x
      · by_cases hy : p.y = q.y
        · exact Or.inl ⟨hx, hy⟩
        · exact Or.inr (Or.inl ⟨hx, hy⟩)
      · rcases h with h | h
        · exact absurd h hx
        · exact Or.inr (Or.inr ⟨h, hx⟩)
    · rw [if_neg h]
      obtain ⟨hx, hy⟩ := not_or.mp h
      cases vf with
      | true =>
        rw [if_pos rfl]
        exact List.chain'_cons.mpr ⟨Or.inr (Or.inl ⟨rfl, hy⟩),
          List.chain'_cons.mpr ⟨Or.inr (Or.inr ⟨rfl, hx⟩), ih q⟩⟩
      | false =>
        rw [if_neg (by simp)]
        exact List.chain'_cons.mpr ⟨Or.inr (Or.inr ⟨rfl, hx⟩),
          List.chain'_cons.mpr ⟨Or.inr (Or.inl ⟨rfl, hy⟩), ih q⟩⟩

theorem snapSegment_ne_nil (p q : Pt) (vf : Bool) : snapSegment p q vf ≠ [] := by
  unfold snapSegment
  split_ifs <;> simp

theorem snapSegment_getLast? (p q : Pt) (vf : Bool) :
    (snapSegment p q vf).getLast? = some q := by
  unfold snapSegment
  split_ifs <;> rfl

theorem snapAux_ne_nil (vf : Bool) (p : Pt) {rest : List Pt} (h : rest ≠ []) :
    snapAux vf p rest ≠ [] := by
  cases rest with
  | nil => exact absurd rfl h
  | cons q rest =>
    show snapSegment p q vf ++ snapAux vf q rest ≠ []
    simp [snapSegment_ne_nil]

theorem snapAux_getLast? (vf : Bool) (rest : List Pt) :
    ∀ p : Pt, rest ≠ [] → (snapAux vf p rest).getLast? = rest.getLast? := by
  induction rest with
  | nil => intro p h; exact absurd rfl h
  | cons q rest ih =>
    intro p _
    show (snapSegment p q vf ++ snapAux vf q rest).getLast? = _
    cases rest with
    | nil =>
      show (snapSegment p q vf ++ []).getLast? = some q
      rw [List.append_nil]
      exact snapSegment_getLast? p q vf
    | cons r rest' =>
      rw [List.getLast?_append_of_ne_nil _ (snapAux_ne_nil vf q (by simp)),
        ih q (by simp), List.getLast?_cons_cons]

theorem chain'_snapToOrthogonal (points : List Pt) (vf : Bool) :
    List.Chain' orthoStep (snapToOrthogonal points vf) := by
  cases points with
  | nil => exact List.chain'_nil
  | cons p rest => exact chain'_snapAux vf p rest

theorem snapToOrthogonal_head? (points : List Pt) (vf : Bool) :
    (snapToOrthogonal points vf).head? = points.head? := by
  cases points <;> rfl

theorem snapToOrthogonal_getLast? (points : List Pt) (vf : Bool) :
    (snapToOrthogonal points vf).getLast? = points.getLast? := by
  cases points with
  | nil => rfl
  | cons p rest =>
    cases rest with
    | nil => rfl
    | cons q rest2 =>
      show (p :: snapAux vf p (q :: rest2)).getLast? = _
      have hne := @snapAux_ne_nil vf p (q :: rest2) (by simp)
      cases hsa : snapAux vf p (q :: rest2) with
      | nil => exact absurd hsa hne
      | cons a l2 =>
        rw [List.getLast?_cons_cons, ← hsa, snapAux_getLast? vf _ p (by simp)]
        exact (List.getLast?_cons_cons).symm

theorem snapToOrthogonal_degenerate (points : List Pt) (vf : Bool)
    (hlen : points.length ≤ 1) : snapToOrthogonal points vf = points := by
  cases points with
  | nil => rfl
  | cons p rest =>
    cases rest with
    | nil => rfl
    | cons q rest2 => simp at hlen

theorem orthoStep_symm {p q : Pt} (h : orthoStep p q) : orthoStep q p := by
  rcases h with ⟨h1, h2⟩ | ⟨h1, h2⟩ | ⟨h1, h2⟩
  · exact Or.inl ⟨h1.symm, h2.symm⟩
  · exact Or.inr (Or.inl ⟨h1.symm, fun hc => h2 hc.symm⟩)
  · exact Or.inr (Or.inr ⟨h1.symm, fun hc => h2 hc.symm⟩)

theorem chain'_ortho_reverse {l : List Pt} (h : List.Chain' orthoStep l) :
    List.Chain' orthoStep l.reverse := by
  rw [List.chain'_reverse]
  exact h.imp fun a b hab => orthoStep_symm hab

theorem chain'_clipFirst (shape : Option ClipRect) {l : List Pt}
    (h : List.Chain' orthoStep l) : List.Chain' orthoStep (clipFirst shape l) := by
  cases l with
  | nil => exact h
  | cons p rest =>
    cases rest with
    | nil => exact h
    | cons q rest2 =>
      cases shape with
      | none => exact h
      | some r =>
        show List.Chain' orthoStep
          (if r.contains p then exitTowards r p q :: q :: rest2 else p :: q :: rest2)
        split
        · refine List.chain'_cons.mpr ⟨?_, (List.chain'_cons.mp h).2⟩
          unfold exitTowards
          by_cases hx : p.x = q.x
          · rw [if_pos hx]
            by_cases hy : (if p.y ≤ q.y then r.cy + r.hh else r.cy - r.hh) = q.y
            · exact Or.inl ⟨hx, hy⟩
            · exact Or.inr (Or.inl ⟨hx, hy⟩)
          · rw [if_neg hx]
            by_cases hy : p.y = q.y
            · rw [if_pos hy]
              by_cases hx2 : (if p.x ≤ q.x then r.cx + r.hw else r.cx - r.hw) = q.x
              · exact Or.inl ⟨hx2, hy⟩
              · exact Or.inr (Or.inr ⟨hy, hx2⟩)
            · rw [if_neg hy]
              exact (List.chain'_cons.mp h).1
        · exact h

theorem chain'_clipEndpointsToNodes (l : List Pt) (src tgt : Option ClipRect)
    (h : List.Chain' orthoStep l) :
    List.Chain' orthoStep (clipEndpointsToNodes l src tgt) := by
  unfold clipEndpointsToNodes
  exact chain'_ortho_reverse (chain'_clipFirst tgt (chain'_ortho_reverse (chain'_clipFirst src h)))

theorem c4RelOfEdge_points (diagram : C4Diagram) (sol : DagreSolution)
    (e : (String × String) × C4EdgeAttrs) (r : PositionedC4Relationship)
    (h : c4RelOfEdge diagram sol e = some r) :
    r.points = clipEndpointsToNodes
      (snapToOrthogonal ((sol.points e.1).getD []) true)
      ((sol.node e.1.1).map clipRectOfNode) ((sol.node e.1.2).map clipRectOfNode) := by
  unfold c4RelOfEdge at h
  split at h
  · cases h
  · simp only [Option.some.injEq] at h
    rw [← h]

/-- C3: every positioned edge in either layout's output has a point list
(snapped, then endpoint-clipped — both modelled from the spec, since
`src/dagre-adapter.ts` is absent from the provided sources) in which
every consecutive pair of points shares exactly one coordinate unless the
two points are identical; the snapping step leaves the path's first and
last points unchanged and passes paths of 0 or 1 points through
unchanged. -/
theorem C3_snap_orthogonal :
    (∀ (eng : DagreEngine C4NodeAttrs C4EdgeAttrs) (diagram : C4Diagram)
        (res : PositionedC4Diagram), layoutC4Diagram eng diagram = .ok res →
        ∀ r ∈ res.relationships, List.Chain' orthoStep r.points)
    ∧ (∀ (eng : DagreEngine ArchNodeAttrs ArchEdgeAttrs) (diagram : ArchiMateDiagram)
        (res : PositionedArchiMateDiagram), layoutArchiMateDiagram eng diagram = .ok res →
        ∀ r ∈ res.relationships, List.Chain' orthoStep r.points)
    ∧ (∀ (points : List Pt) (vf : Bool),
        (snapToOrthogonal points vf).head? = points.head?
        ∧ (snapToOrthogonal points vf).getLast? = points.getLast?
        ∧ (points.length ≤ 1 → snapToOrthogonal points vf = points)) := by
  refine ⟨?_, ?_, fun points vf => ⟨snapToOrthogonal_head? points vf,
    snapToOrthogonal_getLast? points vf, snapToOrthogonal_degenerate points vf⟩⟩
  · intro eng diagram res h r hr
    simp only [layoutC4Diagram] at h
    split at h
    · rw [Except.ok.injEq] at h
      subst h
      cases hr
    · split at h
      · exact absurd h (by simp)
      · rw [Except.ok.injEq] at h
        subst h
        dsimp only at hr
        obtain ⟨e, he, hfe⟩ := List.mem_filterMap.mp hr
        rw [c4RelOfEdge_points diagram _ e r hfe]
        exact chain'_clipEndpointsToNodes _ _ _ (chain'_snapToOrthogonal _ _)
  · intro eng diagram res h r hr
    simp only [layoutArchiMateDiagram] at h
    split at h
    · rw [Except.ok.injEq] at h
      subst h
      cases hr
    · split at h
      · exact absurd h (by simp)
      · rw [Except.ok.injEq] at h
        subst h
        dsimp only at hr
        simp only [extractArchRelationships] at hr
        obtain ⟨e, he, hfe⟩ := List.mem_filterMap.mp hr
        split at hfe
        · cases hfe
        · split at hfe
          · cases hfe
          · split at hfe
            · cases hfe
            · simp only [Option.some.injEq] at hfe
              rw [← hfe]
              exact chain'_clipEndpointsToNodes _ _ _ (chain'_snapToOrthogonal _ _)

/-- A concrete element for the C3 witness. -/
def c3ElA : C4Element :=
  { kind := .System, alias_ := "a", label := "a", description := none,
    technology := none, external := false }

/-- A second concrete element for the C3 witness. -/
def c3ElB : C4Element :=
  { kind := .System, alias_ := "b", label := "b", description := none,
    technology := none, external := false }

/-- A concrete two-element diagram with one relationship for the C3
witness. -/
def c3Diagram : C4Diagram :=
  { title := none, elements := [c3ElA, c3ElB],
    relationships := [{ from_ := "a", to_ := "b", label := "r", technology := none }],
    boundaries := [] }

/-- A concrete dagre behaviour for `c3Diagram` with a diagonal raw edge
polyline, exercising both the snap insertion and the endpoint clipping. -/
def c3Eng : DagreEngine C4NodeAttrs C4EdgeAttrs :=
  { solve := fun _ =>
      { node := fun id =>
          if id = "a" then some ⟨120, 80, some 160, some 80⟩
          else if id = "b" then some ⟨120, 240, some 160, some 80⟩ else none,
        points := fun _ => some [⟨120, 120⟩, ⟨125, 200⟩],
        width := some 240, height := some 320 },
    failMsg := fun _ => "unknown node" }

/-- The layout of `c3Diagram` under `c3Eng`: the edge path is the snapped
and clipped orthogonal polyline. -/
def c3Res : PositionedC4Diagram :=
  { width := 240, height := 320, title := none,
    elements :=
      [{ kind := .System, alias_ := "a", label := "a", description := none,
         technology := none, external := false, x := 40, y := 40, width := 160,
         height := 80 },
       { kind := .System, alias_ := "b", label := "b", description := none,
         technology := none, external := false, x := 40, y := 200, width := 160,
         height := 80 }],
    relationships :=
      [{ from_ := "a", to_ := "b", label := "r", technology := none,
         points := [⟨120, 120⟩, ⟨120, 200⟩, ⟨40, 200⟩] }],
    boundaries := [] }

set_option maxRecDepth 100000 in
set_option maxHeartbeats 2000000 in
/-- Witness for C3 at the concrete diagonal-edge layout and at a concrete
one-point path. -/
theorem C3_snap_witness :
    List.Chain' orthoStep
      ({ from_ := "a", to_ := "b", label := "r", technology := none,
         points := [⟨120, 120⟩, ⟨120, 200⟩, ⟨40, 200⟩] } :
        PositionedC4Relationship).points
    ∧ ([(⟨0, 0⟩ : Pt)].length ≤ 1 ∧ snapToOrthogonal [⟨0, 0⟩] true = [⟨0, 0⟩]) :=
  ⟨C3_snap_orthogonal.1 c3Eng c3Diagram c3Res (by with_unfolding_all rfl)
      _ (by with_unfolding_all decide),
   by decide, (C3_snap_orthogonal.2.2 [⟨0, 0⟩] true).2.2 (by decide)⟩

/-! ## Empty-input behaviour (claim C4) -/

/-- C4: for the empty input graph (no elements), both layout entry points
return a zero-size result with empty element, relationship and
group/layer lists, without raising an error. -/
theorem C4_empty_layouts (engC : DagreEngine C4NodeAttrs C4EdgeAttrs)
    (engA : DagreEngine ArchNodeAttrs ArchEdgeAttrs) (title : Option String) :
    layoutC4Diagram engC
        { title := title, elements := [], relationships := [], boundaries := [] }
      = .ok { width := 0, height := 0, title := none, elements := [],
              relationships := [], boundaries := [] }
    ∧ layoutArchiMateDiagram engA { layers := [], elements := [], relationships := [] }
      = .ok { width := 0, height := 0, layers := [], elements := [],
              relationships := [] } :=
  ⟨rfl, rfl⟩

/-! ## Element sizing (claim C7) -/

/-- The C4 element size as the claim words it: a Person is a fixed 160×180
box regardless of text; any other element's width is the estimated width
of the widest of its rendered label/technology/description lines plus the
fixed horizontal padding, floored at the configured minimum, and its
height is the number of text lines times the fixed line height plus the
fixed vertical padding, floored at the configured minimum. -/
def claimedElementSize (element : C4Element) : Size :=
  if element.kind = .Person then ⟨160, 180⟩
  else
    let lineWidths :=
      [estimateTextWidth element.label FONT_SIZES.nodeLabel FONT_WEIGHTS.nodeLabel] ++
      (match element.technology with
       | some t => [estimateTextWidth ("[" ++ t ++ "]") C4.techFontSize C4.techFontWeight]
       | none => []) ++
      (match element.description with
       | some d => [estimateTextWidth d C4.descFontSize C4.descFontWeight]
       | none => [])
    let widest := match lineWidths with
      | [] => 0
      | w :: ws => ws.foldl max w
    ⟨max C4.minBoxWidth (widest + C4.boxPadX * 2),
     max C4.minBoxHeight ((lineWidths.length : ℚ) * C4.lineHeight + C4.boxPadY * 2)⟩

/-- C7: `calculateElementSize` computes exactly the claimed sizes — the
fixed 160×180 for Person elements, and the max-of-minimum text-driven
width/height formula for all other kinds. -/
theorem C7_element_sizing (element : C4Element) :
    calculateElementSize element = claimedElementSize element := by
  rcases element with ⟨kind, a, l, d, t, ex⟩
  rcases hk : kind == C4ElementKind.Person with hq | hq
  · have hk' : kind ≠ .Person := by
      intro h; subst h; simp at hk
    cases d <;> cases t <;>
      simp [calculateElementSize, claimedElementSize, hk', Size.mk.injEq] <;>
      norm_num
  · have hk' : kind = .Person := by
      cases kind <;> first | rfl | simp at hk
    subst hk'
    rfl

/-! ## Text-metrics properties (claim C8) -/

/-- C8 (amended): the text-metrics estimator counts each glyph whose first
UTF-16 code unit falls in the checked CJK/Hangul/fullwidth ranges as 2
columns and every other glyph — including emoji, which are astral code
points and are **not** counted double-width by this estimator — as 1
column; it scales the column count by a per-weight average-width ratio
that is larger for heavier weights, returns a non-negative (finite
rational) value for non-negative font sizes, is monotone under appending
text, and returns 0 for empty text. -/
theorem C8_text_metrics (s t : String) (fs w : ℚ) :
    estimateTextWidth "" fs w = 0
    ∧ (0 ≤ fs → 0 ≤ estimateTextWidth s fs w)
    ∧ (0 ≤ fs → estimateTextWidth s fs w ≤ estimateTextWidth (s ++ t) fs w)
    ∧ (∀ w1 w2 : ℚ, w1 ≤ w2 → widthRatio w1 ≤ widthRatio w2)
    ∧ (∀ c : Char, getDisplayWidth (String.mk [c]) = if isFullWidth c then 2 else 1)
    ∧ (∀ c : Char, 0x10000 ≤ c.toNat → isFullWidth c = false)
    ∧ estimateTextWidth s fs w = (getDisplayWidth s : ℚ) * fs * widthRatio w := by
  refine ⟨?_, ?_, ?_, fun w1 w2 h => widthRatio_mono h, ?_, isFullWidth_astral, rfl⟩
  · simp [estimateTextWidth, getDisplayWidth, displayWidthAux]
  · intro hfs
    exact mul_nonneg (mul_nonneg (Nat.cast_nonneg _) hfs) (widthRatio_pos w).le
  · intro hfs
    unfold estimateTextWidth
    have hd : getDisplayWidth s ≤ getDisplayWidth (s ++ t) := by
      unfold getDisplayWidth
      rw [String.data_append, displayWidthAux_append]
      omega
    exact mul_le_mul_of_nonneg_right
      (mul_le_mul_of_nonneg_right ((@Nat.cast_le ℚ _ _ _).mpr hd) hfs)
      (widthRatio_pos w).le
  · intro c
    show displayWidthAux [c] = _
    simp [displayWidthAux]

/-- Witness for C8 at a concrete string and font size. -/
theorem C8_text_metrics_witness :
    ((0 : ℚ) ≤ 13) ∧ estimateTextWidth "ab" 13 500 ≤ estimateTextWidth ("ab" ++ "c") 13 500 :=
  ⟨by norm_num, (C8_text_metrics "ab" "c" 13 500).2.2.1 (by norm_num)⟩

/-- Counterexample for C8 as stated: the emoji U+1F600 (in the Emoticons
emoji block) is counted as a single column, not two — `estimateTextWidth`
gives it width 1 × 10 × 0.52 = 5.2, not the 10.4 the claim's
two-column rule would require. -/
theorem C8_emoji_counterexample :
    isFullWidth (Char.ofNat 0x1F600) = false
    ∧ getDisplayWidth (String.mk [Char.ofNat 0x1F600]) = 1
    ∧ estimateTextWidth (String.mk [Char.ofNat 0x1F600]) 10 400 = 26 / 5
    ∧ (26 / 5 : ℚ) ≠ 2 * 10 * 0.52 := by
  refine ⟨by decide, by decide, by with_unfolding_all decide, by norm_num⟩

/-! ## Boundary containment (claim C2) -/

/-- C2: a boundary with at least one positioned member element strictly
contains every positioned member-element rectangle and every child
boundary rectangle, with at least `boundaryPadding` (30px) of margin on
the left, right and bottom sides and `boundaryPadding +
boundaryHeaderHeight` (30px + 28px) above the topmost child. -/
theorem C2_boundary_containment (boundary : C4Boundary)
    (elementLookup : String → Option PositionedC4Element)
    (h : ∃ el ∈ boundary.elements, (elementLookup el.alias_).isSome) :
    ∀ r ∈ memberRects boundary.elements elementLookup ++
          childRects (layoutBoundaries boundary.childBoundaries elementLookup),
      (layoutBoundary boundary elementLookup).x + C4.boundaryPadding ≤ r.x
      ∧ r.right ≤ (layoutBoundary boundary elementLookup).x
          + (layoutBoundary boundary elementLookup).width - C4.boundaryPadding
      ∧ (layoutBoundary boundary elementLookup).y + C4.boundaryPadding
          + C4.boundaryHeaderHeight ≤ r.y
      ∧ r.bottom ≤ (layoutBoundary boundary elementLookup).y
          + (layoutBoundary boundary elementLookup).height - C4.boundaryPadding := by
  obtain ⟨el, hel, hsome⟩ := h
  rcases boundary with ⟨a, lbl, k, els, cbs⟩
  simp only [C4Boundary.elements] at hel
  have hmem : memberRects els elementLookup ++
      childRects (layoutBoundaries cbs elementLookup) ≠ [] := by
    obtain ⟨pos, hpos⟩ := Option.isSome_iff_exists.mp hsome
    have hin : (⟨pos.x, pos.y, pos.x + pos.width, pos.y + pos.height⟩ : ChildRect) ∈
        memberRects els elementLookup :=
      List.mem_filterMap.mpr ⟨el, hel, by rw [hpos]; rfl⟩
    exact List.ne_nil_of_mem (List.mem_append_left _ hin)
  intro r hr
  simp only [C4Boundary.elements, C4Boundary.childBoundaries] at hr
  cases hrects : memberRects els elementLookup ++
      childRects (layoutBoundaries cbs elementLookup) with
  | nil => exact absurd hrects hmem
  | cons r0 rs =>
    rw [hrects] at hr
    simp only [layoutBoundary]
    rw [hrects]
    simp only [PositionedC4Boundary.x, PositionedC4Boundary.y,
      PositionedC4Boundary.width, PositionedC4Boundary.height]
    have h1 : rs.foldl (fun a r => min a r.x) r0.x ≤ r.x := by
      rcases List.mem_cons.mp hr with rfl | hr'
      · exact foldl_min_le_init _ _ _
      · exact foldl_min_le_mem _ _ _ r hr'
    have h2 : rs.foldl (fun a r => min a r.y) r0.y ≤ r.y := by
      rcases List.mem_cons.mp hr with rfl | hr'
      · exact foldl_min_le_init _ _ _
      · exact foldl_min_le_mem _ _ _ r hr'
    have h3 : r.right ≤ rs.foldl (fun a r => max a r.right) r0.right := by
      rcases List.mem_cons.mp hr with rfl | hr'
      · exact le_foldl_max_init _ _ _
      · exact le_foldl_max_mem _ _ _ r hr'
    have h4 : r.bottom ≤ rs.foldl (fun a r => max a r.bottom) r0.bottom := by
      rcases List.mem_cons.mp hr with rfl | hr'
      · exact le_foldl_max_init _ _ _
      · exact le_foldl_max_mem _ _ _ r hr'
    exact ⟨by linarith, by linarith, by linarith, by linarith⟩

/-- A concrete element for the C2 witness. -/
def c2Element : C4Element :=
  { kind := .System, alias_ := "a", label := "a", description := none,
    technology := none, external := false }

/-- A concrete positioned element for the C2 witness. -/
def c2Pos : PositionedC4Element :=
  { kind := .System, alias_ := "a", label := "a", description := none,
    technology := none, external := false, x := 40, y := 40, width := 160,
    height := 80 }

/-- A concrete boundary for the C2 witness. -/
def c2Boundary : C4Boundary := .mk "b" "B" .System_Boundary [c2Element] []

/-- A concrete element lookup for the C2 witness. -/
def c2Lookup : String → Option PositionedC4Element :=
  fun s => if s = "a" then some c2Pos else none

/-! ## Uniform layer bands (claim C6) -/

theorem normalizeLayerWidths_mem (l0 : PositionedArchiMateLayer)
    (rest : List PositionedArchiMateLayer) :
    ∀ l ∈ normalizeLayerWidths (l0 :: rest),
      l.x = rest.foldl (fun a l => min a l.x) l0.x
      ∧ l.x + l.width =
          rest.foldl (fun a l => max a (l.x + l.width)) (l0.x + l0.width) := by
  intro l hl
  simp only [normalizeLayerWidths] at hl
  obtain ⟨l', _, rfl⟩ := List.mem_map.mp hl
  exact ⟨rfl, by ring⟩

/-- C6: after an ArchiMate layout run, the positioned layer bands are
exactly the post-hoc normalization of the individually sized bands: every
output band has the same x-origin (the minimum over the individually
sized bands) and the same width (spanning to the maximum right edge over
all of them, so the common extent covers every individually sized
band and is attained by individual bands on both sides). -/
theorem C6_uniform_layer_bands (eng : DagreEngine ArchNodeAttrs ArchEdgeAttrs)
    (diagram : ArchiMateDiagram) (res : PositionedArchiMateDiagram)
    (h : layoutArchiMateDiagram eng diagram = .ok res) :
    ∃ raw : List PositionedArchiMateLayer,
      res.layers = normalizeLayerWidths raw
      ∧ (∀ l1 ∈ res.layers, ∀ l2 ∈ res.layers, l1.x = l2.x ∧ l1.width = l2.width)
      ∧ (∀ l ∈ res.layers, ∀ lr ∈ raw, l.x ≤ lr.x ∧ lr.x + lr.width ≤ l.x + l.width)
      ∧ (res.layers ≠ [] →
          (∃ lr ∈ raw, ∀ l ∈ res.layers, l.x = lr.x)
          ∧ (∃ lr ∈ raw, ∀ l ∈ res.layers, l.x + l.width = lr.x + lr.width)) := by
  simp only [layoutArchiMateDiagram] at h
  split at h
  · rw [Except.ok.injEq] at h
    subst h
    exact ⟨[], rfl, by simp, by simp, by simp⟩
  · split at h
    · exact absurd h (by simp)
    · rw [Except.ok.injEq] at h
      subst h
      rename_i sol _
      dsimp only
      refine ⟨layerBands (presentLayers diagram) (extractArchElements diagram sol),
        rfl, ?_, ?_, ?_⟩
      · intro l1 h1 l2 h2
        cases hraw : layerBands (presentLayers diagram) (extractArchElements diagram sol) with
        | nil => rw [hraw] at h1; simp [normalizeLayerWidths] at h1
        | cons l0 rest =>
          rw [hraw] at h1 h2
          obtain ⟨ha1, hb1⟩ := normalizeLayerWidths_mem l0 rest l1 h1
          obtain ⟨ha2, hb2⟩ := normalizeLayerWidths_mem l0 rest l2 h2
          exact ⟨ha1.trans ha2.symm, by linarith⟩
      · intro l hl lr hlr
        cases hraw : layerBands (presentLayers diagram) (extractArchElements diagram sol) with
        | nil => rw [hraw] at hlr; cases hlr
        | cons l0 rest =>
          rw [hraw] at hl hlr
          obtain ⟨ha, hb⟩ := normalizeLayerWidths_mem l0 rest l hl
          constructor
          · rw [ha]
            rcases List.mem_cons.mp hlr with rfl | hlr'
            · exact foldl_min_le_init _ _ _
            · exact foldl_min_le_mem _ _ _ lr hlr'
          · have : lr.x + lr.width ≤
                rest.foldl (fun a l => max a (l.x + l.width)) (l0.x + l0.width) := by
              rcases List.mem_cons.mp hlr with rfl | hlr'
              · exact le_foldl_max_init _ _ _
              · exact le_foldl_max_mem _ _ _ lr hlr'
            linarith
      · intro hne
        cases hraw : layerBands (presentLayers diagram) (extractArchElements diagram sol) with
        | nil => rw [hraw] at hne; simp [normalizeLayerWidths] at hne
        | cons l0 rest =>
          constructor
          · rcases foldl_min_cases (fun l : PositionedArchiMateLayer => l.x) rest l0.x
              with hc | ⟨z, hz, hc⟩
            · refine ⟨l0, List.mem_cons_self _ _, ?_⟩
              intro l hl
              exact ((normalizeLayerWidths_mem l0 rest l hl).1).trans hc
            · refine ⟨z, List.mem_cons_of_mem _ hz, ?_⟩
              intro l hl
              exact ((normalizeLayerWidths_mem l0 rest l hl).1).trans hc
          · rcases foldl_max_cases (fun l : PositionedArchiMateLayer => l.x + l.width)
              rest (l0.x + l0.width) with hc | ⟨z, hz, hc⟩
            · refine ⟨l0, List.mem_cons_self _ _, ?_⟩
              intro l hl
              exact ((normalizeLayerWidths_mem l0 rest l hl).2).trans hc
            · refine ⟨z, List.mem_cons_of_mem _ hz, ?_⟩
              intro l hl
              exact ((normalizeLayerWidths_mem l0 rest l hl).2).trans hc

/-- A concrete ArchiMate business element for witnesses. -/
def archElA : ArchiMateElement :=
  { id := "a", label := "a", type := "actor", layer := .business }

/-- A concrete ArchiMate application element for witnesses. -/
def archElB : ArchiMateElement :=
  { id := "b", label := "b", type := "component", layer := .application }

/-- A concrete two-layer ArchiMate diagram with one real relationship. -/
def archDiag : ArchiMateDiagram :=
  { layers := [(.business, [archElA]), (.application, [archElB])],
    elements := [("a", archElA), ("b", archElB)],
    relationships := [{ source := "a", target := "b", type := "serving", label := none }] }

/-- A concrete dagre engine behaviour for `archDiag` (the positions dagre
would produce for the two stacked 120×50 boxes with 40px margins). -/
def archEng : DagreEngine ArchNodeAttrs ArchEdgeAttrs :=
  { solve := fun _ =>
      { node := fun id =>
          if id = "a" then some ⟨100, 65, some 120, some 50⟩
          else if id = "b" then some ⟨100, 175, some 120, some 50⟩ else none,
        points := fun _ => some [], width := some 200, height := some 240 },
    failMsg := fun _ => "unknown node" }

/-- The layout result of `archDiag` under `archEng`. -/
def archRes : PositionedArchiMateDiagram :=
  { width := 200, height := 240,
    layers := [{ name := .business, x := 20, y := -4, width := 160, height := 114 },
               { name := .application, x := 20, y := 106, width := 160, height := 114 }],
    elements := [{ id := "a", label := "a", type := "actor", layer := .business,
                   x := 40, y := 40, width := 120, height := 50 },
                 { id := "b", label := "b", type := "component", layer := .application,
                   x := 40, y := 150, width := 120, height := 50 }],
    relationships := [{ source := "a", target := "b", type := "serving",
                        label := none, points := [] }] }

/-- Witness for C6: the two concrete layer bands share x-origin and width. -/
theorem C6_uniform_layer_bands_witness :
    ({ name := .business, x := 20, y := -4, width := 160,
       height := 114 } : PositionedArchiMateLayer).x
      = ({ name := .application, x := 20, y := 106, width := 160,
           height := 114 } : PositionedArchiMateLayer).x
    ∧ ({ name := .business, x := 20, y := -4, width := 160,
         height := 114 } : PositionedArchiMateLayer).width
      = ({ name := .application, x := 20, y := 106, width := 160,
           height := 114 } : PositionedArchiMateLayer).width :=
  (C6_uniform_layer_bands archEng archDiag archRes
      (by with_unfolding_all decide)).choose_spec.2.1
    _ (by with_unfolding_all decide) _ (by with_unfolding_all decide)

/-! ## Ordering edges never reach the output (claim C9) -/

/-- C9: every relationship in the ArchiMate layout output corresponds to a
real input relationship, recovered through its stored index from a graph
edge that does not carry the ordering-edge tag; invisible layer-ordering
edges are consumed by the layout but never appear in the output list. -/
theorem C9_ordering_edges_excluded (eng : DagreEngine ArchNodeAttrs ArchEdgeAttrs)
    (diagram : ArchiMateDiagram) (res : PositionedArchiMateDiagram)
    (h : layoutArchiMateDiagram eng diagram = .ok res) :
    ∀ r ∈ res.relationships,
      ∃ i rel e, e ∈ (buildArchGraph diagram).edges
        ∧ e.2.layerEdge = false ∧ e.2.index = some i
        ∧ diagram.relationships.get? i = some rel
        ∧ r.source = rel.source ∧ r.target = rel.target
        ∧ r.type = rel.type ∧ r.label = rel.label := by
  simp only [layoutArchiMateDiagram] at h
  split at h
  · rw [Except.ok.injEq] at h
    subst h
    intro r hr
    cases hr
  · split at h
    · exact absurd h (by simp)
    · rw [Except.ok.injEq] at h
      subst h
      intro r hr
      dsimp only at hr
      simp only [extractArchRelationships] at hr
      obtain ⟨e, he, hfe⟩ := List.mem_filterMap.mp hr
      split at hfe
      · cases hfe
      · rename_i hle
        split at hfe
        · cases hfe
        · rename_i i hidx
          split at hfe
          · cases hfe
          · rename_i rel hget
            simp only [Option.some.injEq] at hfe
            refine ⟨i, rel, e, he, Bool.eq_false_iff.mpr hle, hidx, hget, ?_⟩
            rw [← hfe]
            exact ⟨rfl, rfl, rfl, rfl⟩

/-- Witness for C9 at the concrete two-layer diagram: the single output
relationship comes from the real input relationship. -/
theorem C9_ordering_edges_excluded_witness :
    ∃ i rel e, e ∈ (buildArchGraph archDiag).edges
      ∧ e.2.layerEdge = false ∧ e.2.index = some i
      ∧ archDiag.relationships.get? i = some rel
      ∧ ({ source := "a", target := "b", type := "serving", label := none,
           points := [] } : PositionedArchiMateRelationship).source = rel.source
      ∧ ({ source := "a", target := "b", type := "serving", label := none,
           points := [] } : PositionedArchiMateRelationship).target = rel.target
      ∧ ({ source := "a", target := "b", type := "serving", label := none,
           points := [] } : PositionedArchiMateRelationship).type = rel.type
      ∧ ({ source := "a", target := "b", type := "serving", label := none,
           points := [] } : PositionedArchiMateRelationship).label = rel.label :=
  C9_ordering_edges_excluded archEng archDiag archRes
    (by with_unfolding_all decide) _ (by with_unfolding_all decide)

/-- Witness for C2 at a concrete one-member boundary and its member
rectangle. -/
theorem C2_boundary_containment_witness :
    (∃ el ∈ c2Boundary.elements, (c2Lookup el.alias_).isSome)
    ∧ ((layoutBoundary c2Boundary c2Lookup).x + C4.boundaryPadding
          ≤ (⟨40, 40, 200, 120⟩ : ChildRect).x
      ∧ (⟨40, 40, 200, 120⟩ : ChildRect).right
          ≤ (layoutBoundary c2Boundary c2Lookup).x
            + (layoutBoundary c2Boundary c2Lookup).width - C4.boundaryPadding
      ∧ (layoutBoundary c2Boundary c2Lookup).y + C4.boundaryPadding
          + C4.boundaryHeaderHeight ≤ (⟨40, 40, 200, 120⟩ : ChildRect).y
      ∧ (⟨40, 40, 200, 120⟩ : ChildRect).bottom
          ≤ (layoutBoundary c2Boundary c2Lookup).y
            + (layoutBoundary c2Boundary c2Lookup).height - C4.boundaryPadding) :=
  ⟨by decide, C2_boundary_containment c2Boundary c2Lookup (by decide)
    ⟨40, 40, 200, 120⟩ (by with_unfolding_all decide)⟩

/-! ## Structural errors for unknown edge endpoints (claim C1) -/

theorem key_present_updateAssoc {κ α : Type} [DecidableEq κ] (l : List (κ × α))
    (k x : κ) (a : α) :
    (updateAssoc l k a).any (fun p => decide (p.1 = x)) = true
      ↔ (l.any (fun p => decide (p.1 = x)) = true ∨ k = x) := by
  constructor
  · intro h
    rcases List.any_eq_true.mp h with ⟨p, hp, hpx⟩
    simp only [decide_eq_true_eq] at hpx
    rcases mem_updateAssoc hp with rfl | ⟨hmem, _⟩
    · right; exact hpx
    · left; exact List.any_eq_true.mpr ⟨p, hmem, by simp [hpx]⟩
  · intro h
    rcases h with h | rfl
    · rcases List.any_eq_true.mp h with ⟨p, hp, hpx⟩
      simp only [decide_eq_true_eq] at hpx
      obtain ⟨b, hb⟩ :=
        @key_mem_updateAssoc_of_mem _ _ _ l p.1 k a ⟨p.2, by simpa using hp⟩
      exact List.any_eq_true.mpr ⟨(p.1, b), hb, by simp [hpx]⟩
    · obtain ⟨b, hb⟩ := key_mem_updateAssoc l k a
      exact List.any_eq_true.mpr ⟨(k, b), hb, by simp⟩

theorem addC4Nodes_hasNode (els : List C4Element)
    (g : DagreGraph C4NodeAttrs C4EdgeAttrs) (x : String) :
    (addC4Nodes els g).hasNode x = true
      ↔ (g.hasNode x = true ∨ ∃ el ∈ els, el.alias_ = x) := by
  induction els generalizing g with
  | nil => simp [addC4Nodes]
  | cons el rest ih =>
    show (addC4Nodes rest _).hasNode x = true ↔ _
    rw [ih]
    show (updateAssoc g.nodes el.alias_ _).any _ = true ∨ _ ↔ _
    rw [key_present_updateAssoc]
    simp only [List.exists_mem_cons_iff]
    unfold DagreGraph.hasNode
    tauto

theorem addC4Nodes_edges (els : List C4Element)
    (g : DagreGraph C4NodeAttrs C4EdgeAttrs) :
    (addC4Nodes els g).edges = g.edges := by
  induction els generalizing g with
  | nil => rfl
  | cons el rest ih => exact ih _

theorem addC4Edges_nodes (rels : List C4Relationship) (i : Nat)
    (g : DagreGraph C4NodeAttrs C4EdgeAttrs) :
    (addC4Edges i rels g).nodes = g.nodes := by
  induction rels generalizing i g with
  | nil => rfl
  | cons rel rest ih => exact ih _ _

theorem buildC4Graph_hasNode (diagram : C4Diagram) (x : String) :
    (buildC4Graph diagram).hasNode x = true
      ↔ ∃ el ∈ diagram.elements, el.alias_ = x := by
  unfold buildC4Graph DagreGraph.hasNode
  rw [addC4Edges_nodes]
  have h := addC4Nodes_hasNode diagram.elements ⟨[], []⟩ x
  unfold DagreGraph.hasNode at h
  rw [h]
  simp

theorem addC4Edges_key_persistent (rels : List C4Relationship) (i : Nat)
    (g : DagreGraph C4NodeAttrs C4EdgeAttrs) {k : String × String}
    (h : ∃ b, (k, b) ∈ g.edges) :
    ∃ b, (k, b) ∈ (addC4Edges i rels g).edges := by
  induction rels generalizing i g with
  | nil => exact h
  | cons rel rest ih => exact ih _ _ (key_mem_updateAssoc_of_mem _ _ h)

theorem addC4Edges_key_of_mem (rels : List C4Relationship) (i : Nat)
    (g : DagreGraph C4NodeAttrs C4EdgeAttrs) {rel : C4Relationship}
    (h : rel ∈ rels) :
    ∃ b, ((rel.from_, rel.to_), b) ∈ (addC4Edges i rels g).edges := by
  induction rels generalizing i g with
  | nil => cases h
  | cons r rest ih =>
    rcases List.mem_cons.mp h with rfl | h2
    · exact addC4Edges_key_persistent rest (i + 1) _ (key_mem_updateAssoc _ _ _)
    · exact ih _ _ h2

/-- C1 (amended): a C4 layout call with a nonempty element set whose
relationship list contains an edge referencing a node id not present
among the element aliases raises the explicit layout error that wraps the
underlying graph-library message (no silent drop, no partial result).
The ArchiMate entry point instead silently filters such edges before
building the dagre graph — see the counterexample. -/
theorem C1_structural_error_amended (eng : DagreEngine C4NodeAttrs C4EdgeAttrs)
    (diagram : C4Diagram) (hne : diagram.elements ≠ [])
    (hbad : ∃ rel ∈ diagram.relationships,
      (¬ ∃ el ∈ diagram.elements, el.alias_ = rel.from_)
      ∨ (¬ ∃ el ∈ diagram.elements, el.alias_ = rel.to_)) :
    layoutC4Diagram eng diagram
      = .error ("Dagre layout failed (C4 diagram): "
          ++ eng.failMsg (buildC4Graph diagram)) := by
  obtain ⟨rel, hrel, hmiss⟩ := hbad
  obtain ⟨b, hb⟩ : ∃ b, ((rel.from_, rel.to_), b) ∈ (buildC4Graph diagram).edges := by
    unfold buildC4Graph
    exact addC4Edges_key_of_mem _ 0 _ hrel
  have hinvalid : (buildC4Graph diagram).structurallyValid = false := by
    refine Bool.eq_false_iff.mpr ?_
    intro hall
    rw [DagreGraph.structurallyValid, List.all_eq_true] at hall
    have h2 := hall _ hb
    rw [Bool.and_eq_true] at h2
    rcases hmiss with hm | hm
    · exact hm ((buildC4Graph_hasNode diagram rel.from_).mp h2.1)
    · exact hm ((buildC4Graph_hasNode diagram rel.to_).mp h2.2)
  have hd : dagreLayout eng (buildC4Graph diagram)
      = .error (eng.failMsg (buildC4Graph diagram)) := by
    unfold dagreLayout
    rw [if_neg (by simp [hinvalid])]
  simp only [layoutC4Diagram]
  rw [if_neg (by simpa using hne), hd]

/-- A concrete C4 diagram whose only relationship references the unknown
node id `ghost`. -/
def c1Diagram : C4Diagram :=
  { title := none, elements := [c2Element],
    relationships := [{ from_ := "a", to_ := "ghost", label := "r", technology := none }],
    boundaries := [] }

/-- A concrete engine whose failure message stands for the graph-library
exception raised on the unknown node. -/
def c1Eng : DagreEngine C4NodeAttrs C4EdgeAttrs :=
  { solve := fun _ =>
      { node := fun _ => none, points := fun _ => none, width := none, height := none },
    failMsg := fun _ => "unknown node ghost" }

/-- Witness for C1 at the concrete diagram with an unknown edge target. -/
theorem C1_structural_error_witness :
    c1Diagram.elements ≠ []
    ∧ (∃ rel ∈ c1Diagram.relationships,
        (¬ ∃ el ∈ c1Diagram.elements, el.alias_ = rel.from_)
        ∨ (¬ ∃ el ∈ c1Diagram.elements, el.alias_ = rel.to_))
    ∧ layoutC4Diagram c1Eng c1Diagram
        = .error ("Dagre layout failed (C4 diagram): "
            ++ c1Eng.failMsg (buildC4Graph c1Diagram)) :=
  ⟨by decide, by decide,
    C1_structural_error_amended c1Eng c1Diagram (by decide) (by decide)⟩

/-- A concrete ArchiMate diagram whose only relationship references the
unknown node id `ghost`. -/
def c1ArchDiagram : ArchiMateDiagram :=
  { layers := [(.business, [archElA])], elements := [("a", archElA)],
    relationships := [{ source := "a", target := "ghost", type := "serving",
                        label := none }] }

/-- Counterexample for C1 as stated: the ArchiMate entry point, given a
relationship whose target id is not in the element map, raises no error
and silently drops the edge — the call succeeds and the output
relationship list is empty. -/
theorem C1_archimate_counterexample :
    (∃ rel ∈ c1ArchDiagram.relationships,
      ¬ ∃ p ∈ c1ArchDiagram.elements, p.1 = rel.target)
    ∧ (layoutArchiMateDiagram archEng c1ArchDiagram).map
        (fun r => r.relationships) = .ok [] :=
  ⟨by decide, by with_unfolding_all decide⟩

/-! ## Canvas sizing (claim C5) -/

/-- C5 (amended): the canvas reported by the C4 layout is at least the
dagre-reported graph size, extends at least the fixed outer padding
(40px) beyond the right and bottom edges of every boundary rectangle,
and extends at least 40px beyond the right (resp. bottom) edge of every
element rectangle whenever the dagre-reported graph size itself does —
the graph is configured with 40px margins, but the code takes the
engine's reported size on trust. The original claim's full containment
in `[0,width] × [0,height]` does not hold: a boundary around a top-row
element extends above `y = 0` (see the counterexample), because the
canvas origin is never shifted. -/
theorem C5_canvas_amended (eng : DagreEngine C4NodeAttrs C4EdgeAttrs)
    (diagram : C4Diagram) (res : PositionedC4Diagram)
    (h : layoutC4Diagram eng diagram = .ok res) :
    (∀ b ∈ flattenBoundaries res.boundaries,
        b.x + b.width + C4.padding ≤ res.width
        ∧ b.y + b.height + C4.padding ≤ res.height)
    ∧ (diagram.elements ≠ [] →
        (eng.solve (buildC4Graph diagram)).width.getD 600 ≤ res.width
        ∧ (eng.solve (buildC4Graph diagram)).height.getD 400 ≤ res.height)
    ∧ (∀ el ∈ res.elements,
        (el.x + el.width + C4.padding
            ≤ (eng.solve (buildC4Graph diagram)).width.getD 600 →
          el.x + el.width + C4.padding ≤ res.width)
        ∧ (el.y + el.height + C4.padding
            ≤ (eng.solve (buildC4Graph diagram)).height.getD 400 →
          el.y + el.height + C4.padding ≤ res.height)) := by
  simp only [layoutC4Diagram] at h
  split at h
  · rename_i hz
    rw [Except.ok.injEq] at h
    subst h
    refine ⟨fun b hb => by simp [flattenBoundaries] at hb,
      fun hne => absurd (List.length_eq_zero.mp hz) hne,
      fun el hel => absurd hel (by simp)⟩
  · split at h
    · exact absurd h (by simp)
    · rename_i sol hsol
      rw [Except.ok.injEq] at h
      subst h
      dsimp only
      have hsol2 : eng.solve (buildC4Graph diagram) = sol := by
        unfold dagreLayout at hsol
        split at hsol
        · simpa using hsol
        · exact absurd hsol (by simp)
      refine ⟨?_, ?_, ?_⟩
      · intro b hb
        exact ⟨le_foldl_max_mem _ _ _ b hb, le_foldl_max_mem _ _ _ b hb⟩
      · intro _
        rw [hsol2]
        exact ⟨le_foldl_max_init _ _ _, le_foldl_max_init _ _ _⟩
      · intro el _
        rw [hsol2]
        exact ⟨fun hw => le_trans hw (le_foldl_max_init _ _ _),
          fun hh => le_trans hh (le_foldl_max_init _ _ _)⟩

/-- A concrete C4 diagram: one 160×80 element inside one boundary. -/
def c5Diagram : C4Diagram :=
  { title := none, elements := [c2Element], relationships := [],
    boundaries := [.mk "b" "B" .System_Boundary [c2Element] []] }

/-- The dagre behaviour for `c5Diagram`: the single 160×80 box centred at
(120, 80) inside a 240×160 graph (40px margins all round). -/
def c5Eng : DagreEngine C4NodeAttrs C4EdgeAttrs :=
  { solve := fun _ =>
      { node := fun id => if id = "a" then some ⟨120, 80, some 160, some 80⟩ else none,
        points := fun _ => some [], width := some 240, height := some 160 },
    failMsg := fun _ => "unknown node" }

/-- The layout result of `c5Diagram` under `c5Eng`: the boundary sits at
y = −18, above the canvas. -/
def c5Res : PositionedC4Diagram :=
  { width := 270, height := 190, title := none,
    elements := [c2Pos], relationships := [],
    boundaries := [.mk "b" "B" .System_Boundary 10 (-18) 220 168 []] }

set_option maxRecDepth 100000 in
set_option maxHeartbeats 2000000 in
/-- Witness for C5 at the concrete diagram: the boundary's right and
bottom edges stay at least 40px inside the canvas, and the element's
40px clearance inside the dagre-reported area carries over to the
canvas. -/
theorem C5_canvas_amended_witness :
    ((PositionedC4Boundary.mk "b" "B" .System_Boundary 10 (-18) 220 168 []).x
        + (PositionedC4Boundary.mk "b" "B" .System_Boundary 10 (-18) 220 168 []).width
        + C4.padding ≤ c5Res.width
      ∧ (PositionedC4Boundary.mk "b" "B" .System_Boundary 10 (-18) 220 168 []).y
        + (PositionedC4Boundary.mk "b" "B" .System_Boundary 10 (-18) 220 168 []).height
        + C4.padding ≤ c5Res.height)
    ∧ (c2Pos.x + c2Pos.width + C4.padding ≤ c5Res.width
      ∧ c2Pos.y + c2Pos.height + C4.padding ≤ c5Res.height) :=
  ⟨(C5_canvas_amended c5Eng c5Diagram c5Res (by with_unfolding_all rfl)).1
    _ (by
      rw [show flattenBoundaries c5Res.boundaries
          = [.mk "b" "B" .System_Boundary 10 (-18) 220 168 []] from
        by with_unfolding_all rfl]
      exact List.mem_singleton.mpr rfl),
   ((C5_canvas_amended c5Eng c5Diagram c5Res (by with_unfolding_all rfl)).2.2
      c2Pos (by with_unfolding_all decide)).1 (by with_unfolding_all decide),
   ((C5_canvas_amended c5Eng c5Diagram c5Res (by with_unfolding_all rfl)).2.2
      c2Pos (by with_unfolding_all decide)).2 (by with_unfolding_all decide)⟩

set_option maxRecDepth 100000 in
set_option maxHeartbeats 2000000 in
/-- Counterexample for C5 as stated: at `c5Diagram` / `c5Eng` the layout
succeeds but the boundary rectangle has y = −18 < 0, so it does not lie
within `[0, width] × [0, height]` — the claim's containment fails at the
top canvas edge. -/
theorem C5_canvas_counterexample :
    (layoutC4Diagram c5Eng c5Diagram).map
        (fun r => (flattenBoundaries r.boundaries).all
          (fun b => decide (0 ≤ b.y) && decide (0 ≤ b.x)
            && decide (b.x + b.width ≤ r.width)
            && decide (b.y + b.height ≤ r.height)))
      = .ok false := by
  with_unfolding_all decide

/-! ## One positioned relationship per ordered pair, last one wins
(claim C10) -/

theorem get?_some_lt {α : Type} {l : List α} {n : Nat} {a : α}
    (h : l.get? n = some a) : n < l.length := by
  by_contra hc
  rw [List.get?_eq_none.mpr (by omega)] at h
  cases h

/-- The invariant maintained by the C4 relationship loop: every edge in
the graph carries the attributes of the **latest** relationship (among
the first `n`) with that ordered endpoint pair. -/
def c4EdgeInv (full : List C4Relationship) (n : Nat)
    (e : (String × String) × C4EdgeAttrs) : Prop :=
  ∃ j rel, j < n ∧ full.get? j = some rel ∧ e.1 = (rel.from_, rel.to_)
    ∧ e.2 = c4EdgeAttrsAt j rel
    ∧ ∀ j' rel', j < j' → j' < n → full.get? j' = some rel' →
        (rel'.from_, rel'.to_) ≠ e.1

theorem addC4Edges_inv (full : List C4Relationship) (rels : List C4Relationship) :
    ∀ (i : Nat) (g : DagreGraph C4NodeAttrs C4EdgeAttrs),
    full.drop i = rels →
    (∀ e ∈ g.edges, c4EdgeInv full i e) →
    ∀ e ∈ (addC4Edges i rels g).edges, c4EdgeInv full full.length e := by
  induction rels with
  | nil =>
    intro i g hdrop hinv e he
    have hi : full.length ≤ i := by
      have hlen := congrArg List.length hdrop
      rw [List.length_drop] at hlen
      simp at hlen
      omega
    obtain ⟨j, rel, hj, hget, hkey, hattrs, hlast⟩ := hinv e he
    exact ⟨j, rel, get?_some_lt hget, hget, hkey, hattrs,
      fun j' rel' h1 h2 hget' => hlast j' rel' h1 (by omega) hget'⟩
  | cons rel rest ih =>
    intro i g hdrop hinv e he
    have hget : full.get? i = some rel := by
      have h0 : (full.drop i).get? 0 = some rel := by rw [hdrop]; rfl
      rw [List.get?_drop] at h0
      simpa using h0
    have hdrop2 : full.drop (i + 1) = rest := by
      have ht := List.tail_drop full i
      rw [hdrop] at ht
      exact ht.symm
    refine ih (i + 1) _ hdrop2 ?_ e he
    intro e2 he2
    rcases mem_updateAssoc he2 with heq | ⟨hmem, hne⟩
    · subst heq
      refine ⟨i, rel, Nat.lt_succ_self i, hget, rfl, rfl, ?_⟩
      intro j' rel' h1 h2 hget'
      omega
    · obtain ⟨j, rel0, hj, hget0, hkey, hattrs, hlast⟩ := hinv e2 hmem
      refine ⟨j, rel0, Nat.lt_succ_of_lt hj, hget0, hkey, hattrs, ?_⟩
      intro j' rel' h1 h2 hget'
      by_cases hji : j' = i
      · subst hji
        rw [hget'] at hget
        injection hget with h22
        subst h22
        exact Ne.symm hne
      · exact hlast j' rel' h1 (by omega) hget'

theorem buildC4Graph_edges_inv (diagram : C4Diagram) :
    ∀ e ∈ (buildC4Graph diagram).edges,
      c4EdgeInv diagram.relationships diagram.relationships.length e := by
  apply addC4Edges_inv diagram.relationships diagram.relationships 0 _ (by simp)
  intro e he
  rw [addC4Nodes_edges] at he
  cases he

theorem addC4Edges_keys_nodup (rels : List C4Relationship) (i : Nat)
    (g : DagreGraph C4NodeAttrs C4EdgeAttrs)
    (h : (g.edges.map Prod.fst).Nodup) :
    (((addC4Edges i rels g).edges).map Prod.fst).Nodup := by
  induction rels generalizing i g with
  | nil => exact h
  | cons rel rest ih => exact ih _ _ (keys_nodup_updateAssoc _ _ h)

theorem buildC4Graph_keys_nodup (diagram : C4Diagram) :
    (((buildC4Graph diagram).edges).map Prod.fst).Nodup := by
  apply addC4Edges_keys_nodup
  rw [addC4Nodes_edges]
  exact List.nodup_nil

theorem nodup_filterMap_keys {α β γ : Type} (f : α → Option β) (key : α → γ)
    (pk : β → γ) (l : List α)
    (hf : ∀ e ∈ l, ∀ r, f e = some r → pk r = key e)
    (hn : (l.map key).Nodup) : ((l.filterMap f).map pk).Nodup := by
  induction l with
  | nil => simp
  | cons e l ih =>
    rw [List.map_cons, List.nodup_cons] at hn
    obtain ⟨hke, hnl⟩ := hn
    cases hfe : f e with
    | none =>
      rw [List.filterMap_cons_none hfe]
      exact ih (fun e2 he2 => hf e2 (List.mem_cons_of_mem _ he2)) hnl
    | some r =>
      rw [List.filterMap_cons_some hfe, List.map_cons, List.nodup_cons]
      refine ⟨?_, ih (fun e2 he2 => hf e2 (List.mem_cons_of_mem _ he2)) hnl⟩
      intro hmem
      rcases List.mem_map.mp hmem with ⟨r2, hr2, hrr⟩
      rcases List.mem_filterMap.mp hr2 with ⟨e2, he2, hfe2⟩
      have h1 : pk r2 = key e2 := hf e2 (List.mem_cons_of_mem _ he2) r2 hfe2
      have h2 : pk r = key e := hf e (List.mem_cons_self _ _) r hfe
      apply hke
      rw [← h2, ← hrr, h1]
      exact List.mem_map_of_mem key he2

theorem c4RelOfEdge_some_spec (diagram : C4Diagram) (sol : DagreSolution)
    (e : (String × String) × C4EdgeAttrs) (r : PositionedC4Relationship)
    (h : c4RelOfEdge diagram sol e = some r) :
    ∃ rel, diagram.relationships.get? e.2.index = some rel
      ∧ r.from_ = rel.from_ ∧ r.to_ = rel.to_ ∧ r.label = rel.label
      ∧ r.technology = rel.technology := by
  unfold c4RelOfEdge at h
  split at h
  · cases h
  · rename_i rel hget
    simp only [Option.some.injEq] at h
    exact ⟨rel, hget, by rw [← h], by rw [← h], by rw [← h], by rw [← h]⟩

theorem c4RelOfEdge_pair (diagram : C4Diagram) (sol : DagreSolution) :
    ∀ e ∈ (buildC4Graph diagram).edges, ∀ r, c4RelOfEdge diagram sol e = some r →
      (r.from_, r.to_) = e.1 := by
  intro e he r hfe
  obtain ⟨j, rel, hj, hget, hkey, hattrs, hlast⟩ := buildC4Graph_edges_inv diagram e he
  obtain ⟨rel2, hget2, hfrom, hto, _, _⟩ := c4RelOfEdge_some_spec diagram sol e r hfe
  have hidx : e.2.index = j := by rw [hattrs]; rfl
  rw [hidx, hget] at hget2
  injection hget2 with h22
  subst h22
  rw [hfrom, hto, hkey]

/-- C10: after a successful C4 layout of a diagram with at least one
element, the output relationship list has pairwise-distinct ordered
endpoint pairs; each output relationship carries the label and technology
of the **last** input relationship with its pair; every input
relationship's pair is represented; and when the input contains duplicate
pairs, the output list is strictly shorter than the input list. -/
theorem C10_last_duplicate_wins (eng : DagreEngine C4NodeAttrs C4EdgeAttrs)
    (diagram : C4Diagram) (res : PositionedC4Diagram)
    (h : layoutC4Diagram eng diagram = .ok res) (hne : diagram.elements ≠ []) :
    ((res.relationships.map (fun r => (r.from_, r.to_))).Nodup)
    ∧ (∀ r ∈ res.relationships, ∃ i rel, diagram.relationships.get? i = some rel
        ∧ r.from_ = rel.from_ ∧ r.to_ = rel.to_ ∧ r.label = rel.label
        ∧ r.technology = rel.technology
        ∧ ∀ j rel2, diagram.relationships.get? j = some rel2 →
            rel2.from_ = r.from_ → rel2.to_ = r.to_ → j ≤ i)
    ∧ (∀ rel ∈ diagram.relationships, ∃ r ∈ res.relationships,
        r.from_ = rel.from_ ∧ r.to_ = rel.to_)
    ∧ (¬ (diagram.relationships.map (fun rel => (rel.from_, rel.to_))).Nodup →
        res.relationships.length < diagram.relationships.length) := by
  simp only [layoutC4Diagram] at h
  split at h
  · rename_i hz
    exact absurd (List.length_eq_zero.mp hz) hne
  · split at h
    · exact absurd h (by simp)
    · rename_i sol hsol
      rw [Except.ok.injEq] at h
      subst h
      dsimp only
      have hmain : ∀ r ∈ extractC4Relationships diagram (buildC4Graph diagram) sol,
          ∃ i rel, diagram.relationships.get? i = some rel
            ∧ r.from_ = rel.from_ ∧ r.to_ = rel.to_ ∧ r.label = rel.label
            ∧ r.technology = rel.technology
            ∧ ∀ j rel2, diagram.relationships.get? j = some rel2 →
                rel2.from_ = r.from_ → rel2.to_ = r.to_ → j ≤ i := by
        intro r hr
        obtain ⟨e, he, hfe⟩ := List.mem_filterMap.mp hr
        obtain ⟨j, rel, hj, hget, hkey, hattrs, hlast⟩ :=
          buildC4Graph_edges_inv diagram e he
        obtain ⟨rel2, hget2, hfrom, hto, hlab, htech⟩ :=
          c4RelOfEdge_some_spec diagram sol e r hfe
        have hidx : e.2.index = j := by rw [hattrs]; rfl
        rw [hidx, hget] at hget2
        injection hget2 with h22
        subst h22
        refine ⟨j, rel, hget, hfrom, hto, hlab, htech, ?_⟩
        intro j2 rel2 hget2 hf2 ht2
        by_contra hgt
        push_neg at hgt
        refine hlast j2 rel2 hgt (get?_some_lt hget2) hget2 ?_
        rw [hkey, ← hfrom, ← hto, ← hf2, ← ht2]
      have hnodup : ((extractC4Relationships diagram (buildC4Graph diagram) sol).map
          (fun r => (r.from_, r.to_))).Nodup := by
        unfold extractC4Relationships
        exact nodup_filterMap_keys _ Prod.fst _ _
          (c4RelOfEdge_pair diagram sol) (buildC4Graph_keys_nodup diagram)
      have hcomplete : ∀ rel ∈ diagram.relationships,
          ∃ r ∈ extractC4Relationships diagram (buildC4Graph diagram) sol,
            r.from_ = rel.from_ ∧ r.to_ = rel.to_ := by
        intro rel hrel
        obtain ⟨b, hb⟩ : ∃ b, ((rel.from_, rel.to_), b) ∈ (buildC4Graph diagram).edges := by
          unfold buildC4Graph
          exact addC4Edges_key_of_mem _ 0 _ hrel
        obtain ⟨j, relj, hj, hget, hkey, hattrs, hlast⟩ :=
          buildC4Graph_edges_inv diagram _ hb
        have hidx : (((rel.from_, rel.to_), b) :
            (String × String) × C4EdgeAttrs).2.index = j := by
          rw [hattrs]
          rfl
        obtain ⟨r, hr⟩ : ∃ r, c4RelOfEdge diagram sol ((rel.from_, rel.to_), b)
            = some r := by
          unfold c4RelOfEdge
          rw [hidx, hget]
          exact ⟨_, rfl⟩
        refine ⟨r, List.mem_filterMap.mpr ⟨_, hb, hr⟩, ?_⟩
        have hpr := c4RelOfEdge_pair diagram sol _ hb r hr
        have : (r.from_, r.to_) = (rel.from_, rel.to_) := hpr
        exact ⟨congrArg Prod.fst this, congrArg Prod.snd this⟩
      refine ⟨hnodup, hmain, hcomplete, ?_⟩
      intro hdup
      set op := (extractC4Relationships diagram (buildC4Graph diagram) sol).map
        (fun r => (r.from_, r.to_)) with hop
      set ip := diagram.relationships.map (fun rel => (rel.from_, rel.to_)) with hip
      have hsub : op ⊆ ip.dedup := by
        intro pr hpr
        rw [List.mem_dedup]
        rcases List.mem_map.mp hpr with ⟨r, hr, hrpr⟩
        obtain ⟨i, rel, hget, hfrom, hto, _, _, _⟩ := hmain r hr
        rw [hip]
        refine List.mem_map.mpr ⟨rel, List.get?_mem hget, ?_⟩
        rw [← hrpr, hfrom, hto]
      have hlen1 : op.length ≤ ip.dedup.length :=
        (hnodup.subperm hsub).length_le
      have hlen2 : ip.dedup.length < ip.length := by
        rcases lt_or_eq_of_le (List.dedup_sublist ip).length_le with hlt | heq
        · exact hlt
        · exact absurd (((List.dedup_sublist ip).eq_of_length heq) ▸
            List.nodup_dedup ip) hdup
      have hr1 : (extractC4Relationships diagram (buildC4Graph diagram) sol).length
          = op.length := (List.length_map _ _).symm
      have hr2 : diagram.relationships.length = ip.length :=
        (List.length_map _ _).symm
      omega

/-- A second concrete element for the C10 witness. -/
def c10ElB : C4Element :=
  { kind := .System, alias_ := "b", label := "b", description := none,
    technology := none, external := false }

/-- A concrete diagram with two relationships on the same ordered pair
(a, b), labelled `first` and `second`. -/
def c10Diagram : C4Diagram :=
  { title := none, elements := [c2Element, c10ElB],
    relationships :=
      [{ from_ := "a", to_ := "b", label := "first", technology := none },
       { from_ := "a", to_ := "b", label := "second", technology := none }],
    boundaries := [] }

/-- The dagre behaviour for `c10Diagram`: the two stacked 160×80 boxes. -/
def c10Eng : DagreEngine C4NodeAttrs C4EdgeAttrs :=
  { solve := fun _ =>
      { node := fun id =>
          if id = "a" then some ⟨120, 80, some 160, some 80⟩
          else if id = "b" then some ⟨120, 240, some 160, some 80⟩ else none,
        points := fun _ => some [], width := some 240, height := some 320 },
    failMsg := fun _ => "unknown node" }

/-- The layout of `c10Diagram` under `c10Eng`: one positioned
relationship, carrying the label of the **second** (last) input
relationship. -/
def c10Res : PositionedC4Diagram :=
  { width := 240, height := 320, title := none,
    elements :=
      [{ kind := .System, alias_ := "a", label := "a", description := none,
         technology := none, external := false, x := 40, y := 40, width := 160,
         height := 80 },
       { kind := .System, alias_ := "b", label := "b", description := none,
         technology := none, external := false, x := 40, y := 200, width := 160,
         height := 80 }],
    relationships :=
      [{ from_ := "a", to_ := "b", label := "second", technology := none,
         points := [] }],
    boundaries := [] }

set_option maxRecDepth 100000 in
set_option maxHeartbeats 2000000 in
/-- Witness for C10 at the concrete duplicate-pair diagram: the output
pairs are pairwise distinct, the input pairs are not, and the output list
is strictly shorter than the input list. -/
theorem C10_last_duplicate_wins_witness :
    ((c10Res.relationships.map (fun r => (r.from_, r.to_))).Nodup)
    ∧ (¬ (c10Diagram.relationships.map (fun rel => (rel.from_, rel.to_))).Nodup)
    ∧ c10Res.relationships.length < c10Diagram.relationships.length :=
  ⟨(C10_last_duplicate_wins c10Eng c10Diagram c10Res
      (by with_unfolding_all rfl) (by decide)).1,
   by decide,
   (C10_last_duplicate_wins c10Eng c10Diagram c10Res
      (by with_unfolding_all rfl) (by decide)).2.2.2 (by decide)⟩

/-- A diagram with an empty element set but two relationships on the same
ordered pair. -/
def c10EmptyDiagram : C4Diagram :=
  { title := none, elements := [],
    relationships :=
      [{ from_ := "a", to_ := "b", label := "first", technology := none },
       { from_ := "a", to_ := "b", label := "second", technology := none }],
    boundaries := [] }

/-- Counterexample for C10 as stated: with an empty element set the early
return bypasses the graph build, so an input with two relationships on
the ordered pair (a, b) produces an output with **zero** positioned
relationships for that pair — not exactly one. -/
theorem C10_counterexample :
    (c10EmptyDiagram.relationships.map (fun rel => (rel.from_, rel.to_))
        = [("a", "b"), ("a", "b")])
    ∧ (layoutC4Diagram c1Eng c10EmptyDiagram).map
        (fun r => r.relationships.length) = .ok 0 :=
  ⟨by decide, by with_unfolding_all decide⟩

end BM
